import Mathlib

/-!
Verification of the route-based facility-siting engine (`planner.py`) of the
TransCalc repository.

The Python module is shallowly embedded below.  Conventions:

* Python floats are modelled as real numbers (`ℝ`); float literals become the
  corresponding real literals, `math`-library functions become their Mathlib
  counterparts.
* Network I/O (the Overpass gateway) is modelled by oracle parameters: every
  function that in the source performs an HTTP query receives the parsed
  outcome of that query (or the whole per-attempt outcome function, for the
  retry loop) as an explicit argument.  The pure computation on those outcomes
  is translated from the source line by line.
* Fallible code returns `Except`; Python exceptions raised by `analyze_path`
  become `Except.error` values.

Definitions come first, then the theorems about the claims.
-/

namespace TransCalc

/-- A geographic point, `(lat, lon)` in degrees — the `Tuple[float, float]`
of the source. -/
abbrev GeoPoint : Type := ℝ × ℝ

/-- The primary Overpass endpoint (`OVERPASS_URL`). -/
def OVERPASS_URL : String := "https://overpass-api.de/api/interpreter"

/-- The mirror list (`OVERPASS_URLS`), in configured order. -/
def OVERPASS_URLS : List String :=
  [OVERPASS_URL,
   "https://overpass.kumi.systems/api/interpreter",
   "https://overpass.osm.ch/api/interpreter",
   "https://overpass.nchc.org.tw/api/interpreter"]

/-- Default factor weights (`DEFAULT_WEIGHTS`), an association list standing
for the Python dict (keys are unique). -/
def DEFAULT_WEIGHTS : List (String × ℝ) :=
  [("road_proximity", 5.0),
   ("midpoint_preference", 4.0),
   ("quarry_proximity", 2.0),
   ("rubber_proximity", 1.0),
   ("landuse_preference", 3.0),
   ("highway_proximity", 2.5),
   ("bitumen_source_proximity", 1.0)]

/-- Search radius around the path in meters (`SEARCH_RADIUS_M = 200000`). -/
def SEARCH_RADIUS_M : ℝ := 200000

/-- Degrees-to-radians conversion, the source's `math.radians`. -/
noncomputable def radians (x : ℝ) : ℝ := x * Real.pi / 180

/-- Euclidean norm of a 2-vector, the source's `math.hypot`. -/
noncomputable def hypot (x y : ℝ) : ℝ := Real.sqrt (x ^ 2 + y ^ 2)

/-- Two-argument arctangent, the source's `math.atan2` (C semantics; the
`x = 0` column returns `±π/2` resp. `0`). -/
noncomputable def atan2 (y x : ℝ) : ℝ :=
  if 0 < x then Real.arctan (y / x)
  else if x < 0 then
    (if 0 ≤ y then Real.arctan (y / x) + Real.pi else Real.arctan (y / x) - Real.pi)
  else
    (if 0 < y then Real.pi / 2 else if y < 0 then -(Real.pi / 2) else 0)

/-- Great-circle distance in meters (`haversine_m`). -/
noncomputable def haversine_m (lat1 lon1 lat2 lon2 : ℝ) : ℝ :=
  let R : ℝ := 6371000.0
  let phi1 := radians lat1
  let phi2 := radians lat2
  let dphi := phi2 - phi1
  let dl := radians (lon2 - lon1)
  let a := Real.sin (dphi / 2) ^ 2 +
    Real.cos phi1 * Real.cos phi2 * Real.sin (dl / 2) ^ 2
  let c := 2 * atan2 (Real.sqrt a) (Real.sqrt (1 - a))
  R * c

/-- Meters per degree of latitude at reference latitude `lat0` (radians);
the inline formula of `point_to_segment_distance_m`. -/
noncomputable def mPerDegLat (lat0 : ℝ) : ℝ :=
  111132.92 - 559.82 * Real.cos (2 * lat0) + 1.175 * Real.cos (4 * lat0)

/-- Meters per degree of longitude at reference latitude `lat0` (radians);
the inline formula of `point_to_segment_distance_m`. -/
noncomputable def mPerDegLon (lat0 : ℝ) : ℝ :=
  111412.84 * Real.cos lat0 - 93.5 * Real.cos (3 * lat0)

/-- Approximate point-to-segment distance in meters
(`point_to_segment_distance_m`): local equirectangular projection around the
segment midpoint, clamped projection parameter, planar distance. -/
noncomputable def point_to_segment_distance_m (p a b : GeoPoint) : ℝ :=
  let lat1 := a.1; let lon1 := a.2
  let lat2 := b.1; let lon2 := b.2
  let latp := p.1; let lonp := p.2
  let lat0 := radians ((lat1 + lat2) / 2)
  let mlat := mPerDegLat lat0
  let mlon := mPerDegLon lat0
  let ax := lon1 * mlon; let ay := lat1 * mlat
  let bx := lon2 * mlon; let bY := lat2 * mlat
  let px := lonp * mlon; let py := latp * mlat
  let vx := bx - ax; let vy := bY - ay
  let wx := px - ax; let wy := py - ay
  let segLen2 := vx * vx + vy * vy
  if segLen2 ≤ 1e-9 then hypot (px - ax) (py - ay)
  else
    let t := max 0 (min 1 ((wx * vx + wy * vy) / segLen2))
    let cx := ax + t * vx; let cy := ay + t * vy
    hypot (px - cx) (py - cy)

/-- Minimum distance from a point to the polyline (`min_distance_to_path_m`).
The source initialises the minimum to `float("inf")` and loops over the
consecutive segments; for a path with at least one segment this is the
minimum of the segment distances.  For a degenerate path (< 2 points) the
source would return `+inf`, which ℝ cannot represent; we use the junk value
`1e18` there — every verified claim constrains the path length to ≥ 2 before
this case can matter. -/
noncomputable def min_distance_to_path_m (point : GeoPoint) (path : List GeoPoint) : ℝ :=
  match path.zip path.tail with
  | [] => 1e18
  | s :: rest =>
      rest.foldl (fun acc ab => min acc (point_to_segment_distance_m point ab.1 ab.2))
        (point_to_segment_distance_m point s.1 s.2)

/-- Cumulative distance along the path (`_path_cumdist_m`), starting at `0`.
Helper for the tail of the list. -/
noncomputable def cumdistAux : GeoPoint → List GeoPoint → ℝ → List ℝ
  | _, [], _ => []
  | p, q :: rest, acc =>
      let acc2 := acc + haversine_m p.1 p.2 q.1 q.2
      acc2 :: cumdistAux q rest acc2

/-- Cumulative distance along the path (`_path_cumdist_m`); the list always
starts with `0.0`, as in the source (even for an empty path). -/
noncomputable def path_cumdist_m : List GeoPoint → List ℝ
  | [] => [0]
  | p :: rest => 0 :: cumdistAux p rest 0

/-- Total path length: `cd[-1]` of the cumulative-distance list (never
empty, so the default is irrelevant). -/
noncomputable def pathTotal (path : List GeoPoint) : ℝ :=
  ((path_cumdist_m path).getLast?).getD 0

/-- The shared interpolation loop of `path_midpoint` and
`point_at_distance_m`: scan the points paired with their cumulative
distances for the first index whose cumulative distance reaches `target` and
linearly interpolate inside that segment; degenerate segments return their
endpoint; if the scan falls off the end (the source's final
`return path[-1]`), the last point walked is returned. -/
noncomputable def seekInterp (target : ℝ) : GeoPoint → ℝ → List (GeoPoint × ℝ) → GeoPoint
  | prev, _, [] => prev
  | prev, cdp, (curr, cdc) :: rest =>
      if target ≤ cdc then
        let segLen := cdc - cdp
        if segLen ≤ 1e-9 then curr
        else
          let t := (target - cdp) / segLen
          (prev.1 + t * (curr.1 - prev.1), prev.2 + t * (curr.2 - prev.2))
      else seekInterp target curr cdc rest

/-- Length-weighted path midpoint (`path_midpoint`). -/
noncomputable def path_midpoint (path : List GeoPoint) : GeoPoint :=
  match path with
  | [] => (0, 0)
  | [p] => p
  | p :: q :: rest =>
      let cd := path_cumdist_m (p :: q :: rest)
      let total := pathTotal (p :: q :: rest)
      if total ≤ 1e-9 then (p :: q :: rest).getD ((p :: q :: rest).length / 2) (0, 0)
      else seekInterp (0.5 * total) p 0 ((q :: rest).zip cd.tail)

/-- Point on the path at arc length `s` meters from the start
(`point_at_distance_m`). -/
noncomputable def point_at_distance_m (path : List GeoPoint) (s : ℝ) : GeoPoint :=
  match path with
  | [] => (0, 0)
  | [p] => p
  | p :: q :: rest =>
      let cd := path_cumdist_m (p :: q :: rest)
      let total := pathTotal (p :: q :: rest)
      if total ≤ 1e-9 then p
      else if s ≤ 0 then p
      else if total ≤ s then (p :: q :: rest).getLast (by simp)
      else seekInterp s p 0 ((q :: rest).zip cd.tail)

/-- Distance and arc-length pair computed for one segment inside
`path_fraction_at_point` (the source inlines the same local projection as
`point_to_segment_distance_m` and additionally tracks the arc length of the
projected point): given the segment `(a, b)` with cumulative distance `cdi`
at `a`, returns `(d, s_here)`. -/
noncomputable def fracSegDS (point a b : GeoPoint) (cdi : ℝ) : ℝ × ℝ :=
  let lat1 := a.1; let lon1 := a.2
  let lat2 := b.1; let lon2 := b.2
  let latp := point.1; let lonp := point.2
  let lat0 := radians ((lat1 + lat2) / 2)
  let mlat := mPerDegLat lat0
  let mlon := mPerDegLon lat0
  let ax := lon1 * mlon; let ay := lat1 * mlat
  let bx := lon2 * mlon; let bY := lat2 * mlat
  let px := lonp * mlon; let py := latp * mlat
  let vx := bx - ax; let vy := bY - ay
  let wx := px - ax; let wy := py - ay
  let segLen2 := vx * vx + vy * vy
  if segLen2 ≤ 1e-9 then (hypot (px - ax) (py - ay), cdi)
  else
    let t := max 0 (min 1 ((wx * vx + wy * vy) / segLen2))
    let cx := ax + t * vx; let cy := ay + t * vy
    let d := hypot (px - cx) (py - cy)
    let segLen := hypot vx vy
    (d, cdi + t * segLen)

/-- One step of the best-projection fold of `path_fraction_at_point`
(`best_d` starts at `+inf` and `best_s` at `None`; the `Option` state plays
both roles). -/
noncomputable def fracStep (point : GeoPoint) (st : Option (ℝ × ℝ))
    (seg : (GeoPoint × GeoPoint) × ℝ) : Option (ℝ × ℝ) :=
  let ds := fracSegDS point seg.1.1 seg.1.2 seg.2
  match st with
  | none => some ds
  | some (bd, bs) => if ds.1 < bd then some ds else some (bd, bs)

/-- Fractional position of the nearest projection of `point` along the path
(`path_fraction_at_point`), in `[0, 1]`; `0.5` for degenerate paths. -/
noncomputable def path_fraction_at_point (point : GeoPoint) (path : List GeoPoint) : ℝ :=
  if path.length < 2 then 0.5
  else
    let cd := path_cumdist_m path
    let total := pathTotal path
    if total ≤ 1e-9 then 0.5
    else
      let segs := (path.zip path.tail).zip cd
      match segs.foldl (fracStep point) none with
      | none => 0.5
      | some (_, bs) =>
          let frac := if 0 < total then bs / total else 0.5
          max 0 (min 1 frac)

/-- Exponential decay score (`exp_decay`): `exp(-max(0, d)/τ)`, but `0`
whenever the scale is at most `1e-9` (the source's guard `tau_m <= 1e-9`). -/
noncomputable def exp_decay (distance_m tau_m : ℝ) : ℝ :=
  if tau_m ≤ 1e-9 then 0
  else Real.exp (-(max 0 distance_m) / tau_m)

/-- One parsed Overpass element, as consumed by `landuse_near`: its type
string, optional direct coordinates (nodes), optional centroid coordinates
(ways/relations, the `center` member), its tag set and its id. -/
structure OElement where
  etype : String
  elat : Option ℝ
  elon : Option ℝ
  clat : Option ℝ
  clon : Option ℝ
  tags : List (String × String)
  id : Option ℤ

/-- Landuse suitability table (`LANDUSE_SCORES`), an association list for the
Python dict. -/
def LANDUSE_SCORES : List (String × ℝ) :=
  [("industrial", 1.0),
   ("brownfield", 0.9),
   ("construction", 0.8),
   ("greenfield", 0.75),
   ("quarry", 0.7),
   ("landfill", 0.7),
   ("meadow", 0.6),
   ("grass", 0.6),
   ("farmland", 0.45),
   ("commercial", 0.35),
   ("retail", 0.25),
   ("forest", 0.20),
   ("residential", 0.0),
   ("military", 0.0),
   ("cemetery", 0.0),
   ("reservoir", 0.0)]

/-- One fold step of the nearest-landuse scan in `landuse_near`: skip
elements without a (truthy) `landuse` tag or without resolvable coordinates,
otherwise keep the element whose centroid is strictly closest so far.  The
state is `(best, best_d)` with `best_d` started at `1e12` as in the source. -/
noncomputable def landuseStep (lat lon : ℝ)
    (st : Option (String × Option ℤ) × ℝ) (el : OElement) :
    Option (String × Option ℤ) × ℝ :=
  match el.tags.lookup "landuse" with
  | none => st
  | some lu =>
      if lu = "" then st
      else
        let coords := if el.etype = "node" then (el.elat, el.elon) else (el.clat, el.clon)
        match coords.1, coords.2 with
        | some lat2, some lon2 =>
            let d := haversine_m lat lon lat2 lon2
            if d < st.2 then (some (lu, el.id), d) else st
        | _, _ => st

/-- Nearest-landuse lookup (`landuse_near`): the Overpass round trip is an
oracle argument `outcome` (the parsed element list, or `Except.error` when
`overpass_post` raised); on failure the source returns `None`, otherwise the
closest element carrying a `landuse` tag. -/
noncomputable def landuse_near (outcome : Except Unit (List OElement))
    (point : GeoPoint) : Option (String × Option ℤ) :=
  match outcome with
  | .error _ => none
  | .ok els => (els.foldl (landuseStep point.1 point.2) (none, 1e12)).1

/-- The process-wide landuse cache `_LANDUSE_CACHE`, keyed by the coordinate
rounded to 5 decimal places.  The source key is the string
`f"{lat:.5f},{lon:.5f}"`; we model it as the pair of rounded integer
numerators (two coordinates share a key exactly when their 5-decimal
renderings agree, up to the sign-of-zero corner the claims never exercise). -/
abbrev LuCache : Type := List ((ℤ × ℤ) × (ℝ × Option String))

/-- Cache key of a point: both coordinates rounded at the 5th decimal. -/
noncomputable def lu_cache_key (p : GeoPoint) : ℤ × ℤ :=
  (round (p.1 * 100000), round (p.2 * 100000))

/-- Landuse suitability (`landuse_score`): consult the cache; on a miss run
`landuse_near` (whose query outcome is the oracle argument), map the tag
through `LANDUSE_SCORES` (unknown tags score `0.5`), cache and return.
Returns the `(score, label)` pair together with the updated cache; the
neutral result `(0.5, none)` is produced when nothing was found. -/
noncomputable def landuse_score (cache : LuCache)
    (outcome : Except Unit (List OElement)) (point : GeoPoint) :
    (ℝ × Option String) × LuCache :=
  let key := lu_cache_key point
  match cache.lookup key with
  | some res => (res, cache)
  | none =>
      match landuse_near outcome point with
      | none =>
          let res : ℝ × Option String := (0.5, none)
          (res, (key, res) :: cache)
      | some (tag, _) =>
          if tag = "" then
            let res : ℝ × Option String := (0.5, none)
            (res, (key, res) :: cache)
          else
            let t := tag.toLower
            let score := (LANDUSE_SCORES.lookup t).getD 0.5
            let res : ℝ × Option String := (score, some t)
            (res, (key, res) :: cache)

/-- Events observable from `overpass_post`: an attempt against a mirror in a
given round, or a backoff sleep of the given number of seconds. -/
inductive PostEv where
  | hit (round : ℕ) (url : String)
  | sleepFor (secs : ℕ)
deriving DecidableEq, Repr

/-- Error result of `overpass_post`: the re-raised last exception, or the
source's final `RuntimeError("Overpass request failed without exception")`
when no attempt ever ran. -/
inductive PostErr (E : Type) where
  | exc (e : E)
  | noAttempt
deriving DecidableEq

/-- The per-attempt outcome oracle for `overpass_post`: what
`requests.post(url, ...).json()` (with `raise_for_status`) produces on round
`n` against mirror `url`. -/
abbrev MirrorOracle (E R : Type) : Type := ℕ → String → Except E R

/-- Inner mirror loop of `overpass_post` for one round: try each URL in
order; on success return the response, otherwise update `last_exc` and move
on.  Returns the response (if any), the updated `last_exc`, and the attempt
trace. -/
def tryRound (att : MirrorOracle E R) (n : ℕ) :
    List String → Option E → Option R × Option E × List PostEv
  | [], last => (none, last, [])
  | u :: rest, last =>
      match att n u with
      | .ok v => (some v, last, [.hit n u])
      | .error e =>
          let x := tryRound att n rest (some e)
          (x.1, x.2.1, .hit n u :: x.2.2)

/-- Outer retry loop of `overpass_post` over the round indices
`range(rts + 1)`: after a fully failed round with index `a < rts`, sleep
`backoff[min(a, len(backoff) - 1)]` seconds (the source indexes the list,
which is never empty when produced by `_env_backoff`; the `getD 0` default is
unreachable under that hypothesis). -/
def postRounds (att : MirrorOracle E R) (urls : List String) (rts : ℕ)
    (backoff : List ℕ) : List ℕ → Option E → Except (PostErr E) R × List PostEv
  | [], last =>
      (.error (match last with | some e => .exc e | none => .noAttempt), [])
  | a :: rest, last =>
      match tryRound att a urls last with
      | (some v, _, evs) => (.ok v, evs)
      | (none, last2, evs) =>
          if a < rts then
            let w := backoff.getD (min a (backoff.length - 1)) 0
            let x := postRounds att urls rts backoff rest last2
            (x.1, evs ++ .sleepFor w :: x.2)
          else
            let x := postRounds att urls rts backoff rest last2
            (x.1, evs ++ x.2)

/-- The retry/mirror/backoff loop of `overpass_post`, abstracted over the
per-attempt oracle; `rts` is the resolved retry count and `backoff` the
resolved backoff schedule (the source reads both from arguments or the
environment).  Returns the result together with the attempt/sleep trace. -/
def overpass_post (att : MirrorOracle E R) (rts : ℕ) (backoff : List ℕ) :
    Except (PostErr E) R × List PostEv :=
  postRounds att OVERPASS_URLS rts backoff (List.range (rts + 1)) none

/-- Modelled from the spec (`postQuery` contract, for comparison with
`overpass_post`): the first successful response among the mirrors of one
round, scanning in configured order. -/
def firstSuccessIn (att : MirrorOracle E R) (n : ℕ) : List String → Option R
  | [] => none
  | u :: rest =>
      match att n u with
      | .ok v => some v
      | .error _ => firstSuccessIn att n rest

/-- Modelled from the spec: the attempts a round performs — every mirror in
order up to and including the first success, or all of them. -/
def roundTrace (att : MirrorOracle E R) (n : ℕ) : List String → List PostEv
  | [] => []
  | u :: rest =>
      .hit n u :: (match att n u with | .ok _ => [] | .error _ => roundTrace att n rest)

/-- The error carried by a failed attempt, if any. -/
def errOf : Except E R → Option E
  | .error e => some e
  | .ok _ => none

/-- Modelled from the spec: result of the whole retry loop — the first
successful parsed response over rounds in order, else the last error
encountered over all attempts in order (or the no-attempt error when no
attempt ran at all). -/
def specResult (att : MirrorOracle E R) (urls : List String) (rounds : List ℕ) :
    Except (PostErr E) R :=
  let allErrors := rounds.flatMap fun n => urls.filterMap fun u => errOf (att n u)
  let firstOk := rounds.findSome? fun n => firstSuccessIn att n urls
  match firstOk with
  | some v => .ok v
  | none =>
      match allErrors.getLast? with
      | some e => .error (.exc e)
      | none => .error .noAttempt

/-- Modelled from the spec: the event trace — each round tries the mirrors
in order, stopping at the first success; a sleep of
`backoff[min(round, len(backoff) - 1)]` seconds happens exactly between two
consecutive rounds (never within a round, never after the last round). -/
def specTrace (att : MirrorOracle E R) (urls : List String) (rts : ℕ)
    (backoff : List ℕ) : List ℕ → List PostEv
  | [] => []
  | a :: rest =>
      match firstSuccessIn att a urls with
      | some _ => roundTrace att a urls
      | none =>
          roundTrace att a urls ++
            (if a < rts then [.sleepFor (backoff.getD (min a (backoff.length - 1)) 0)]
             else []) ++
            specTrace att urls rts backoff rest

/-- A facility parsed from an Overpass query (`overpass_query` output dict
`{id, name, lat, lon, type}`). -/
structure OsmFacility where
  id : Option ℤ
  name : String
  lat : ℝ
  lon : ℝ
  kind : String

/-- Weight lookup `weights.get(key, default)`. -/
def wget (weights : List (String × ℝ)) (key : String) (dflt : ℝ) : ℝ :=
  (weights.lookup key).getD dflt

/-- The non-negative weight sum `sum(max(0.0, float(v)) for v in
weights.values())` of `score_candidate` (before the source's `or 1.0`
replacement of a zero sum). -/
def weightNonnegSum (weights : List (String × ℝ)) : ℝ :=
  (weights.map fun kv => max 0 kv.2).sum

/-- Distance to the nearest facility of a candidate list
(`nearest_distance_m` inside `score_candidate`): `1e9` for an empty list. -/
noncomputable def nearest_distance_m (point : GeoPoint) : List OsmFacility → ℝ
  | [] => 1e9
  | c :: rest =>
      rest.foldl (fun acc f => min acc (haversine_m point.1 point.2 f.lat f.lon))
        (haversine_m point.1 point.2 c.lat c.lon)

/-- The per-factor scores of one candidate (the `"scores"` sub-dict of
`score_candidate`). -/
structure ScoreParts where
  near_road : ℝ
  midpoint : ℝ
  quarry : ℝ
  rubber : ℝ
  highway : ℝ
  ready_mix : ℝ
  bitumen : ℝ
  landuse_score : ℝ
  landuse_label : Option String
  buildings_count : ℕ

/-- The full result dict of `score_candidate`. -/
structure ScoreResult where
  point : GeoPoint
  scores : ScoreParts
  total_score : ℝ
  total_score_norm : ℝ

/-- The scoring engine (`score_candidate`).  The two Overpass-backed
sub-calls, `landuse_score(point)` and `buildings_count_within(point, 120.0)`,
are I/O; the values they return are passed in as `lu` and `bcnt`.  Everything
else is translated from the source: exponential decays with the fixed scales,
the density penalty thresholds, the weighted sum that deliberately excludes
`ready_mix`, the landuse zero-clamp at `0.05`, the `0.2` edge penalty for
path fractions ≤ 10% or ≥ 90%, and normalization by the non-negative weight
sum (`or 1.0` when that sum is zero). -/
noncomputable def score_candidate (point : GeoPoint) (path : List GeoPoint)
    (quarries rubbers highways ready_mix bitumen_sources : List OsmFacility)
    (weights : List (String × ℝ)) (lu : ℝ × Option String) (bcnt : ℕ) :
    ScoreResult :=
  let d_road := min_distance_to_path_m point path
  let near_road_score := exp_decay d_road 1500.0
  let mid := path_midpoint path
  let d_mid := haversine_m point.1 point.2 mid.1 mid.2
  let mid_score := exp_decay d_mid 25000.0
  let d_quarry := nearest_distance_m point quarries
  let quarry_score := exp_decay d_quarry 50000.0
  let d_rubber := nearest_distance_m point rubbers
  let rubber_score := exp_decay d_rubber 50000.0
  let d_highway := nearest_distance_m point highways
  let highway_score := exp_decay d_highway 8000.0
  let d_ready := nearest_distance_m point ready_mix
  let ready_mix_score := exp_decay d_ready 50000.0
  let d_bit := nearest_distance_m point bitumen_sources
  let bitumen_score := exp_decay d_bit 80000.0
  let lu_score := lu.1
  let lu_label := lu.2
  let b_pen : ℝ := if bcnt ≤ 2 then 1.0 else if bcnt ≤ 5 then 0.7 else 0.4
  let base_score :=
    wget weights "road_proximity" 5.0 * near_road_score +
    wget weights "midpoint_preference" 4.0 * mid_score +
    wget weights "quarry_proximity" 2.0 * quarry_score +
    wget weights "rubber_proximity" 1.0 * rubber_score +
    wget weights "landuse_preference" 3.0 * lu_score +
    wget weights "highway_proximity" 2.5 * highway_score +
    wget weights "bitumen_source_proximity" 1.0 * bitumen_score
  let total :=
    if lu_score ≤ 0.05 then 0
    else
      let t := base_score * b_pen
      let frac := path_fraction_at_point point path
      if frac ≤ 0.10 ∨ 0.90 ≤ frac then t * 0.2 else t
  let wsum0 := weightNonnegSum weights
  let wsum := if wsum0 = 0 then 1 else wsum0
  let total_norm := max 0 (min 1 (total / wsum))
  { point := point
    scores :=
      { near_road := near_road_score
        midpoint := mid_score
        quarry := quarry_score
        rubber := rubber_score
        highway := highway_score
        ready_mix := ready_mix_score
        bitumen := bitumen_score
        landuse_score := lu_score
        landuse_label := lu_label
        buildings_count := bcnt }
    total_score := total
    total_score_norm := total_norm }

/-- A fallback dataset record (`{name, lat, lon}` as produced by
`_load_fallback_facilities`). -/
structure FBItem where
  name : String
  lat : ℝ
  lon : ℝ

/-- The fallback dataset (the four keyed lists the loader returns; a missing
or malformed file degrades to all-empty lists, so the loaded content is a
parameter here). -/
structure FallbackData where
  asphalt_plants : List FBItem
  waste_sites : List FBItem
  rubber_recycling : List FBItem
  rubber_production : List FBItem

/-- An annotated fallback facility (`_annotate_and_filter` output dict). -/
structure FallbackFacility where
  name : String
  lat : ℝ
  lon : ℝ
  kind : String
  distance_to_path_m : ℝ

/-- An existing facility paired with its score (`a2 = dict(a);
a2["score"] = sc`). -/
structure ScoredFacility where
  fac : OsmFacility
  score : ScoreResult

/-- A proposed new site with its score (the dict built in `analyze_path`). -/
structure ProposedSite where
  name : String
  lat : ℝ
  lon : ℝ
  kind : String
  score : ScoreResult

/-- The result dict of `analyze_path`.  `map_path` models the optional
Folium artifact; rendering is an I/O collaborator outside this model, so it
is `none` here (the source also yields `None` whenever Folium is unavailable
or saving fails). -/
structure AnalysisResult where
  existing : List ScoredFacility
  proposed : List ProposedSite
  quarries : List OsmFacility
  rubbers : List OsmFacility
  highways : List OsmFacility
  ready_mix : List OsmFacility
  bitumen_sources : List OsmFacility
  fallback_asphalt : List FallbackFacility
  fallback_waste : List FallbackFacility
  fallback_rubber_recycling : List FallbackFacility
  fallback_rubber_production : List FallbackFacility
  map_path : Option String

/-- Outcomes of the six live Overpass category queries issued by
`analyze_path`, in source order.  Each is the parsed facility list, or the
exception `overpass_query`/`overpass_post` raised after exhausting all
mirrors and rounds. -/
structure LiveResults (E : Type) where
  asphalt : Except E (List OsmFacility)
  quarries : Except E (List OsmFacility)
  rubbers : Except E (List OsmFacility)
  highways : Except E (List OsmFacility)
  ready_mix : Except E (List OsmFacility)
  bitumen : Except E (List OsmFacility)

/-- Per-point oracle for the two Overpass-backed sub-calls of
`score_candidate`: the `(score, label)` pair `landuse_score` returns (its
cache and query live across the whole analysis) and the building count
`buildings_count_within` returns (a failed count query already yields the
conservative default `3` inside that function). -/
structure ScoringEnv where
  lu : GeoPoint → ℝ × Option String
  bcnt : GeoPoint → ℕ

/-- Errors `analyze_path` can raise: the `ValueError` for an invalid path,
or a propagated Overpass failure. -/
inductive AnalyzeError (E : Type) where
  | invalidPath
  | overpass (e : E)
deriving DecidableEq

/-- Python `round(x, 5)` as a real: round the 5th decimal to the nearest
integer.  (CPython rounds the underlying binary float with ties to even;
no quantity in the claims below sits at a tie.) -/
noncomputable def round5 (x : ℝ) : ℝ := (round (x * 100000) : ℤ) / 100000

/-- The `_annotate_and_filter` closure of `analyze_path`: keep fallback items
within `SEARCH_RADIUS_M` of the path, annotate them with their distance, and
sort ascending by that distance.  (The loader guarantees `lat`/`lon` are
present, so the source's `None` guard never skips an item; an empty `name`
falls back to the category name as `it.get("name") or kind` does.) -/
noncomputable def annotate_and_filter (path : List GeoPoint)
    (items : List FBItem) (kind : String) : List FallbackFacility :=
  let out := items.filterMap fun it =>
    let d := min_distance_to_path_m (it.lat, it.lon) path
    if d ≤ SEARCH_RADIUS_M then
      some { name := if it.name = "" then kind else it.name
             lat := it.lat, lon := it.lon, kind := kind, distance_to_path_m := d }
    else none
  out.mergeSort fun x y => decide (x.distance_to_path_m ≤ y.distance_to_path_m)

/-- The rounded-coordinate key `(round(lat, 5), round(lon, 5))` used by the
proposed-site de-duplication set. -/
noncomputable def roundKey (p : GeoPoint) : ℝ × ℝ := (round5 p.1, round5 p.2)

/-- The candidate point of the `k`-th full 200 km stretch: the point at arc
length `k * SEG_M + MID_M` (`target` in the source loop). -/
noncomputable def proposedTarget (path : List GeoPoint) (k : ℕ) : GeoPoint :=
  point_at_distance_m path ((k : ℝ) * 200000 + 100000)

/-- One step of the proposed-site loop of `analyze_path`: compute the point
at arc length `k * 200 km + 100 km`, key it by its coordinates rounded to 5
decimals, and keep it unless that key was already used.  State: the used-key
set (as a list) and the accepted points in order. -/
noncomputable def proposedStep (path : List GeoPoint)
    (st : List (ℝ × ℝ) × List GeoPoint) (k : ℕ) : List (ℝ × ℝ) × List GeoPoint :=
  let pt := proposedTarget path k
  let key := roundKey pt
  if key ∈ st.1 then st else (key :: st.1, st.2 ++ [pt])

/-- The proposed-site generation of `analyze_path`: when the total path
length reaches 200 km, one candidate per full 200 km stretch, placed at the
stretch's 100 km midpoint, de-duplicated by rounded coordinates. -/
noncomputable def proposed_points (path : List GeoPoint) : List GeoPoint :=
  let total := pathTotal path
  if 200000 ≤ total then
    let num_full := (⌊total / 200000⌋).toNat
    ((List.range num_full).foldl (proposedStep path) ([], [])).2
  else []

/-- The analyzer (`analyze_path`).  Network effects are oracle parameters:
`live` holds the six per-category query outcomes (the bounding box the
source computes only parametrizes those queries), `env` the per-point
landuse/building-count results, `fb` the loaded fallback dataset.  The body
is the source's: validate the path, propagate the first query failure,
annotate and gate the fallback lists, score and sort existing asphalt
plants (top-`top_k`), generate, score and sort proposed sites (no
truncation). -/
noncomputable def analyze_path (live : LiveResults E) (env : ScoringEnv)
    (fb : FallbackData) (path : List GeoPoint) (_mode : String) (top_k : ℕ)
    (weights : List (String × ℝ)) : Except (AnalyzeError E) AnalysisResult :=
  if path.length < 2 then .error .invalidPath
  else do
    let asphalt ← live.asphalt.mapError .overpass
    let quarries ← live.quarries.mapError .overpass
    let rubbers ← live.rubbers.mapError .overpass
    let highways ← live.highways.mapError .overpass
    let ready_mix ← live.ready_mix.mapError .overpass
    let bitumen_sources ← live.bitumen.mapError .overpass
    let fbAsphaltAll := annotate_and_filter path fb.asphalt_plants "fallback_asphalt"
    let fbWasteAll := annotate_and_filter path fb.waste_sites "fallback_waste"
    let fbRubberRecAll := annotate_and_filter path fb.rubber_recycling "fallback_rubber_recycling"
    let fbRubberProdAll := annotate_and_filter path fb.rubber_production "fallback_rubber_production"
    let has_osm_asphalt := asphalt.length > 0
    let has_osm_rubber := rubbers.length > 0
    let fallback_asphalt := if has_osm_asphalt then [] else fbAsphaltAll
    let fallback_rubber_recycling := if has_osm_rubber then [] else fbRubberRecAll
    let fallback_waste := if ¬(has_osm_asphalt ∨ has_osm_rubber) then fbWasteAll else []
    let fallback_rubber_production :=
      if ¬(has_osm_asphalt ∨ has_osm_rubber) then fbRubberProdAll else []
    let existing_scored := asphalt.map fun a =>
      { fac := a
        score := score_candidate (a.lat, a.lon) path quarries rubbers highways
          ready_mix bitumen_sources weights (env.lu (a.lat, a.lon))
          (env.bcnt (a.lat, a.lon)) : ScoredFacility }
    let existing_sorted := existing_scored.mergeSort fun x y =>
      decide (y.score.total_score ≤ x.score.total_score)
    let proposed_scored := (proposed_points path).map fun p =>
      { name := "Proposed Site", lat := p.1, lon := p.2, kind := "proposed"
        score := score_candidate p path quarries rubbers highways ready_mix
          bitumen_sources weights (env.lu p) (env.bcnt p) : ProposedSite }
    let proposed_sorted := proposed_scored.mergeSort fun x y =>
      decide (y.score.total_score ≤ x.score.total_score)
    return { existing := existing_sorted.take top_k
             proposed := proposed_sorted
             quarries := quarries
             rubbers := rubbers
             highways := highways
             ready_mix := ready_mix
             bitumen_sources := bitumen_sources
             fallback_asphalt := fallback_asphalt
             fallback_waste := fallback_waste
             fallback_rubber_recycling := fallback_rubber_recycling
             fallback_rubber_production := fallback_rubber_production
             map_path := none }

/-- Bundles six per-category query outcomes (helper constructor). -/
def mkLive (E : Type) (a q r h rm b : Except E (List OsmFacility)) : LiveResults E :=
  { asphalt := a, quarries := q, rubbers := r, highways := h,
    ready_mix := rm, bitumen := b }

/-- The record `analyze_path` returns on a valid path when all six live
queries succeed with the given lists (spelled out once here; the evaluation
lemma below proves `analyze_path` produces exactly this record). -/
noncomputable def okAnalysis (env : ScoringEnv) (fb : FallbackData)
    (path : List GeoPoint) (top_k : ℕ) (weights : List (String × ℝ))
    (asphalt quarries rubbers highways ready_mix bitumen : List OsmFacility) :
    AnalysisResult :=
  { existing := ((asphalt.map fun a =>
        ({ fac := a
           score := score_candidate (a.lat, a.lon) path quarries rubbers highways
             ready_mix bitumen weights (env.lu (a.lat, a.lon))
             (env.bcnt (a.lat, a.lon)) } : ScoredFacility)).mergeSort
        fun x y => decide (y.score.total_score ≤ x.score.total_score)).take top_k
    proposed := ((proposed_points path).map fun p =>
        ({ name := "Proposed Site", lat := p.1, lon := p.2, kind := "proposed"
           score := score_candidate p path quarries rubbers highways ready_mix
             bitumen weights (env.lu p) (env.bcnt p) } : ProposedSite)).mergeSort
        fun x y => decide (y.score.total_score ≤ x.score.total_score)
    quarries := quarries
    rubbers := rubbers
    highways := highways
    ready_mix := ready_mix
    bitumen_sources := bitumen
    fallback_asphalt := if asphalt.length > 0 then []
      else annotate_and_filter path fb.asphalt_plants "fallback_asphalt"
    fallback_waste := if ¬(asphalt.length > 0 ∨ rubbers.length > 0)
      then annotate_and_filter path fb.waste_sites "fallback_waste" else []
    fallback_rubber_recycling := if rubbers.length > 0 then []
      else annotate_and_filter path fb.rubber_recycling "fallback_rubber_recycling"
    fallback_rubber_production := if ¬(asphalt.length > 0 ∨ rubbers.length > 0)
      then annotate_and_filter path fb.rubber_production "fallback_rubber_production"
      else []
    map_path := none }

/-! ### Concrete inputs used by witnesses and counterexamples -/

/-- A short equatorial path (about 111 km): `[(30.0, 31.0), (30.2, 31.3)]`
of the spec scenario replaced by the equator so that the local projection
constants are exact; two points, one degree of longitude apart. -/
def pathAB : List GeoPoint := [((0 : ℝ), (0 : ℝ)), ((0 : ℝ), (1 : ℝ))]

/-- An equatorial zig-zag path that visits the same segment three times,
letting two candidates share every factor score while sitting at different
path fractions. -/
def pathZig : List GeoPoint :=
  [((0 : ℝ), (0 : ℝ)), ((0 : ℝ), (1 : ℝ)), ((0 : ℝ), (0 : ℝ)), ((0 : ℝ), (1 : ℝ))]

/-- Leg width (degrees of longitude) of the self-overlapping path below,
tuned so that one leg is just over 100 km and the 100 km and 300 km
arc-length marks land within the same 5-decimal rounding bucket. -/
def deltaP3 : ℝ := 0.899323

/-- A self-overlapping equatorial path of four legs (about 400 km in total)
whose 100 km and 300 km proposed-site marks collide after rounding. -/
def pathP3 : List GeoPoint :=
  [((0 : ℝ), (0 : ℝ)), ((0 : ℝ), deltaP3), ((0 : ℝ), (0 : ℝ)),
   ((0 : ℝ), deltaP3), ((0 : ℝ), (0 : ℝ))]

/-- Scoring oracle answering neutral landuse and zero buildings everywhere. -/
def env0 : ScoringEnv := { lu := fun _ => (0.5, none), bcnt := fun _ => 0 }

/-- Empty fallback dataset (missing file). -/
def fbEmpty : FallbackData :=
  { asphalt_plants := [], waste_sites := [], rubber_recycling := [], rubber_production := [] }

/-- Fallback dataset with a single rubber-recycling site sitting on the
path start. -/
def fbRub : FallbackData :=
  { asphalt_plants := [], waste_sites := []
    rubber_recycling := [{ name := "FB Rubber", lat := 0, lon := 0 }]
    rubber_production := [] }

/-- All six live queries succeed with empty results. -/
def liveEmpty : LiveResults Unit :=
  { asphalt := .ok [], quarries := .ok [], rubbers := .ok [], highways := .ok []
    ready_mix := .ok [], bitumen := .ok [] }

/-- A live asphalt facility near the path. -/
def facA : OsmFacility :=
  { id := none, name := "Asphalt A", lat := 0, lon := 0.3, kind := "asphalt" }

/-- Live results with one asphalt facility and zero rubber facilities. -/
def liveC1 : LiveResults Unit :=
  { asphalt := .ok [facA], quarries := .ok [], rubbers := .ok [], highways := .ok []
    ready_mix := .ok [], bitumen := .ok [] }

/-- A concrete attempt oracle for the retry-loop witness: every attempt
fails (with an error remembering its position) except the third mirror in
round 1. -/
def attW : MirrorOracle ℕ ℕ := fun n u =>
  if n = 1 ∧ u = "https://overpass.osm.ch/api/interpreter" then .ok 7
  else .error (n * 10 + (OVERPASS_URLS.indexOf u))

/-! ### Shared helper lemmas -/

/-- A successful association-list lookup produces a member pair. -/
theorem lookup_mem {α β : Type} [BEq α] [LawfulBEq α] {l : List (α × β)} {k : α}
    {b : β} (h : l.lookup k = some b) : (k, b) ∈ l := by
  rcases List.lookup_eq_some_iff.mp h with ⟨l₁, l₂, rfl, -⟩
  simp

/-- Decay scores are non-negative. -/
theorem exp_decay_nonneg (d tau : ℝ) : 0 ≤ exp_decay d tau := by
  unfold exp_decay
  split
  · norm_num
  · exact (Real.exp_pos _).le

/-- Decay scores never exceed one. -/
theorem exp_decay_le_one (d tau : ℝ) : exp_decay d tau ≤ 1 := by
  unfold exp_decay
  split
  · norm_num
  · rename_i h
    push_neg at h
    calc Real.exp (-(max 0 d) / tau) ≤ Real.exp 0 := by
          apply Real.exp_le_exp.mpr
          apply div_nonpos_of_nonpos_of_nonneg
          · simp
          · linarith
      _ = 1 := Real.exp_zero

/-- The landuse suitability table only contains values in the unit
interval. -/
theorem landuse_table_bounds (s : String) (v : ℝ)
    (h : LANDUSE_SCORES.lookup s = some v) : 0 ≤ v ∧ v ≤ 1 := by
  have hm := lookup_mem h
  fin_cases hm <;> norm_num

/-! ### C4 — exponential decay -/

/-- C4 (counterexample): the claim says `exponentialDecay(d, s) = exp(-d/s)`
whenever `s > 0` and `0` only for `s ≤ 0`.  Both parts fail on the code: at
`d = 0, s = 1e-10 > 0` the guard `tau_m <= 1e-9` returns `0`, not
`exp(0) = 1`; and at `d = -1, s = 1` the internal clamp `max(0.0, d)` makes
the code return `exp(0) = 1`, not `exp(1)`. -/
theorem exp_decay_claim_cex :
    exp_decay 0 1e-10 ≠ Real.exp (-(0 : ℝ) / 1e-10) ∧
    exp_decay (-1) 1 ≠ Real.exp (-(-1 : ℝ) / 1) := by
  constructor
  · have h0 : exp_decay 0 1e-10 = 0 := by unfold exp_decay; rw [if_pos (by norm_num)]
    rw [h0]
    simp
  · have h1 : exp_decay (-1) 1 = 1 := by
      unfold exp_decay
      rw [if_neg (by norm_num)]
      norm_num
    rw [h1]
    have h2 : (2 : ℝ) ≤ Real.exp 1 := by
      have := Real.add_one_le_exp (1 : ℝ)
      linarith
    intro hc
    rw [show -(-1 : ℝ) / 1 = 1 by norm_num] at hc
    linarith

/-- C4 (amended): `exponentialDecay(d, s)` equals `exp(-max(0, d)/s)` when
`s > 1e-9` and `0` when `s ≤ 1e-9`; in particular it is `1` at `d = 0` for
every `s > 1e-9`, and for fixed `s` it is monotonically non-increasing
in `d`. -/
theorem exp_decay_amended (d s : ℝ) :
    (s ≤ 1e-9 → exp_decay d s = 0) ∧
    (1e-9 < s → exp_decay d s = Real.exp (-(max 0 d) / s)) ∧
    (1e-9 < s → exp_decay 0 s = 1) ∧
    (∀ e, d ≤ e → exp_decay e s ≤ exp_decay d s) := by
  refine ⟨fun h => ?_, fun h => ?_, fun h => ?_, fun e he => ?_⟩
  · unfold exp_decay; rw [if_pos h]
  · unfold exp_decay; rw [if_neg (not_le.mpr h)]
  · unfold exp_decay
    rw [if_neg (not_le.mpr h)]
    norm_num
  · unfold exp_decay
    by_cases hs : s ≤ 1e-9
    · simp only [if_pos hs]; norm_num
    · simp only [if_neg hs]
      push_neg at hs
      apply Real.exp_le_exp.mpr
      apply div_le_div_of_nonneg_right ?_ (by linarith)
      have : max 0 d ≤ max 0 e := max_le_max le_rfl he
      linarith

/-- C4 (witness): the amended theorem applied at `d = 0, s = 1`. -/
theorem exp_decay_amended_witness : exp_decay 0 1 = 1 :=
  (exp_decay_amended 0 1).2.2.1 (by norm_num)

/-! ### C8 — landuse lookup recovery -/

/-- C8: on a cache miss, if the landuse query failed or no landuse polygon
was found nearby, `landuse_score` returns the neutral result
`(0.5, none)`; the function is total (the query failure was already absorbed
into `landuse_near` returning `none`), so no error reaches the scoring
engine. -/
theorem landuse_neutral_recovery (cache : LuCache)
    (outcome : Except Unit (List OElement)) (point : GeoPoint)
    (hmiss : cache.lookup (lu_cache_key point) = none)
    (h : (∃ e, outcome = .error e) ∨ landuse_near outcome point = none) :
    (landuse_score cache outcome point).1 = (0.5, none) := by
  have hnear : landuse_near outcome point = none := by
    rcases h with ⟨e, rfl⟩ | h
    · rfl
    · exact h
  simp only [landuse_score, hmiss, hnear]

/-- C8 (witness): empty cache, failed query, the origin point. -/
theorem landuse_neutral_recovery_witness :
    (landuse_score [] (.error ()) ((0 : ℝ), (0 : ℝ))).1 = (0.5, none) :=
  landuse_neutral_recovery [] (.error ()) ((0 : ℝ), (0 : ℝ)) rfl (Or.inl ⟨(), rfl⟩)

/-! ### C2 — score normalization -/

/-- C2 (amended): `total_score_norm` is `total_score` divided by the
non-negative weight sum — with divisor `1` substituted when that sum is zero
(the source's `or 1.0`) — clamped to `[0, 1]`; hence it always lies in
`[0, 1]`. -/
theorem score_norm_amended (point : GeoPoint) (path : List GeoPoint)
    (quarries rubbers highways ready_mix bitumen_sources : List OsmFacility)
    (weights : List (String × ℝ)) (lu : ℝ × Option String) (bcnt : ℕ)
    (_hlen : 2 ≤ path.length) :
    (score_candidate point path quarries rubbers highways ready_mix
        bitumen_sources weights lu bcnt).total_score_norm =
      max 0 (min 1 ((score_candidate point path quarries rubbers highways
        ready_mix bitumen_sources weights lu bcnt).total_score /
          (if weightNonnegSum weights = 0 then 1 else weightNonnegSum weights))) ∧
    0 ≤ (score_candidate point path quarries rubbers highways ready_mix
        bitumen_sources weights lu bcnt).total_score_norm ∧
    (score_candidate point path quarries rubbers highways ready_mix
        bitumen_sources weights lu bcnt).total_score_norm ≤ 1 := by
  refine ⟨rfl, ?_, ?_⟩
  · simp only [score_candidate]
    exact le_max_left 0 _
  · simp only [score_candidate]
    exact max_le (by norm_num) (min_le_left 1 _)

/-- C2 (witness for the amended theorem): the short equatorial path with
default weights satisfies the hypotheses. -/
theorem score_norm_amended_witness :
    0 ≤ (score_candidate ((0 : ℝ), (0.5 : ℝ)) pathAB [] [] [] [] []
        DEFAULT_WEIGHTS (0.5, none) 0).total_score_norm ∧
    (score_candidate ((0 : ℝ), (0.5 : ℝ)) pathAB [] [] [] [] []
        DEFAULT_WEIGHTS (0.5, none) 0).total_score_norm ≤ 1 :=
  (score_norm_amended ((0 : ℝ), (0.5 : ℝ)) pathAB [] [] [] [] []
    DEFAULT_WEIGHTS (0.5, none) 0 (by norm_num [pathAB])).2

/-! ### C9 — score components stay in the unit interval -/

/-- The value produced by `landuse_score` lies in `[0, 1]` whenever the
cached values do. -/
theorem landuse_score_bounds (cache : LuCache)
    (outcome : Except Unit (List OElement)) (point : GeoPoint)
    (hcache : ∀ kv ∈ cache, 0 ≤ kv.2.1 ∧ kv.2.1 ≤ 1) :
    0 ≤ (landuse_score cache outcome point).1.1 ∧
      (landuse_score cache outcome point).1.1 ≤ 1 := by
  unfold landuse_score
  cases hc : cache.lookup (lu_cache_key point) with
  | some res =>
      simp only [hc]
      simpa using hcache (lu_cache_key point, res) (lookup_mem hc)
  | none =>
      simp only [hc]
      cases hn : landuse_near outcome point with
      | none => simp only [hn]; norm_num
      | some info =>
          obtain ⟨tag, oid⟩ := info
          simp only [hn]
          by_cases ht : tag = ""
          · rw [if_pos ht]; norm_num
          · rw [if_neg ht]
            cases hl : LANDUSE_SCORES.lookup tag.toLower with
            | none => simp only [hl]; norm_num
            | some v =>
                simp only [hl]
                have := landuse_table_bounds tag.toLower v hl
                simpa using this

/-- C9: each factor score the scoring engine produces before weighting —
`near_road`, `midpoint`, `quarry`, `rubber`, `highway`, `ready_mix`,
`bitumen` and the landuse score (as computed by `landuse_score` from any
well-formed cache) — lies in `[0, 1]`. -/
theorem score_components_unit_interval (point : GeoPoint) (path : List GeoPoint)
    (quarries rubbers highways ready_mix bitumen_sources : List OsmFacility)
    (weights : List (String × ℝ)) (cache : LuCache)
    (outcome : Except Unit (List OElement)) (bcnt : ℕ)
    (_hlen : 2 ≤ path.length)
    (hcache : ∀ kv ∈ cache, 0 ≤ kv.2.1 ∧ kv.2.1 ≤ 1) :
    let sc := score_candidate point path quarries rubbers highways ready_mix
      bitumen_sources weights ((landuse_score cache outcome point).1) bcnt
    (0 ≤ sc.scores.near_road ∧ sc.scores.near_road ≤ 1) ∧
    (0 ≤ sc.scores.midpoint ∧ sc.scores.midpoint ≤ 1) ∧
    (0 ≤ sc.scores.quarry ∧ sc.scores.quarry ≤ 1) ∧
    (0 ≤ sc.scores.rubber ∧ sc.scores.rubber ≤ 1) ∧
    (0 ≤ sc.scores.highway ∧ sc.scores.highway ≤ 1) ∧
    (0 ≤ sc.scores.ready_mix ∧ sc.scores.ready_mix ≤ 1) ∧
    (0 ≤ sc.scores.bitumen ∧ sc.scores.bitumen ≤ 1) ∧
    (0 ≤ sc.scores.landuse_score ∧ sc.scores.landuse_score ≤ 1) := by
  simp only [score_candidate]
  refine ⟨⟨?_, ?_⟩, ⟨?_, ?_⟩, ⟨?_, ?_⟩, ⟨?_, ?_⟩, ⟨?_, ?_⟩, ⟨?_, ?_⟩, ⟨?_, ?_⟩, ?_⟩
  any_goals first
    | exact exp_decay_nonneg _ _
    | exact exp_decay_le_one _ _
  exact landuse_score_bounds cache outcome point hcache

/-- C9 (witness): the short equatorial path, empty facility lists, empty
cache. -/
theorem score_components_unit_interval_witness :
    let sc := score_candidate ((0 : ℝ), (0.5 : ℝ)) pathAB [] [] [] [] []
      DEFAULT_WEIGHTS ((landuse_score [] (.error ()) ((0 : ℝ), (0.5 : ℝ))).1) 0
    (0 ≤ sc.scores.near_road ∧ sc.scores.near_road ≤ 1) ∧
    (0 ≤ sc.scores.midpoint ∧ sc.scores.midpoint ≤ 1) ∧
    (0 ≤ sc.scores.quarry ∧ sc.scores.quarry ≤ 1) ∧
    (0 ≤ sc.scores.rubber ∧ sc.scores.rubber ≤ 1) ∧
    (0 ≤ sc.scores.highway ∧ sc.scores.highway ≤ 1) ∧
    (0 ≤ sc.scores.ready_mix ∧ sc.scores.ready_mix ≤ 1) ∧
    (0 ≤ sc.scores.bitumen ∧ sc.scores.bitumen ≤ 1) ∧
    (0 ≤ sc.scores.landuse_score ∧ sc.scores.landuse_score ≤ 1) :=
  score_components_unit_interval ((0 : ℝ), (0.5 : ℝ)) pathAB [] [] [] [] []
    DEFAULT_WEIGHTS [] (.error ()) 0 (by norm_num [pathAB]) (by simp)

/-! ### C6 — input validation of analyze -/

/-- C6: `analyze_path` fails with the invalid-input error exactly when the
path has fewer than two points; the check precedes every facility query, so
the outcome is independent of all oracle inputs (they are universally
quantified here), and a path with at least two points never produces that
error. -/
theorem analyze_invalid_path {E : Type} (live : LiveResults E)
    (env : ScoringEnv) (fb : FallbackData) (path : List GeoPoint)
    (mode : String) (top_k : ℕ) (weights : List (String × ℝ)) :
    analyze_path live env fb path mode top_k weights = .error .invalidPath ↔
      path.length < 2 := by
  constructor
  · intro h
    by_contra hlen
    unfold analyze_path at h
    rw [if_neg hlen] at h
    obtain ⟨a, q, r, hw, rm, b⟩ := live
    cases a <;> cases q <;> cases r <;> cases hw <;> cases rm <;> cases b <;>
      simp_all [Except.mapError, Except.bind, Bind.bind, pure, Except.pure]
  · intro h
    unfold analyze_path
    rw [if_pos h]

/-! ### C5 — retry/backoff contract of the Overpass gateway -/

/-- The response slot of one mirror round is the first success. -/
theorem tryRound_fst (att : MirrorOracle E R) (n : ℕ) :
    ∀ (urls : List String) (last : Option E),
      (tryRound att n urls last).1 = firstSuccessIn att n urls := by
  intro urls
  induction urls with
  | nil => intro last; rfl
  | cons u rest ih =>
      intro last
      unfold tryRound firstSuccessIn
      cases h : att n u with
      | ok v => rfl
      | error e => simpa using ih (some e)

/-- The attempt trace of one mirror round is every mirror in order up to and
including the first success. -/
theorem tryRound_trace (att : MirrorOracle E R) (n : ℕ) :
    ∀ (urls : List String) (last : Option E),
      (tryRound att n urls last).2.2 = roundTrace att n urls := by
  intro urls
  induction urls with
  | nil => intro last; rfl
  | cons u rest ih =>
      intro last
      unfold tryRound roundTrace
      cases h : att n u with
      | ok v => rfl
      | error e => simpa using ih (some e)

/-- After a fully failed round, `last_exc` is the last error the round
produced, or the incoming one if the round made no attempt. -/
theorem tryRound_last (att : MirrorOracle E R) (n : ℕ) :
    ∀ (urls : List String) (last : Option E),
      firstSuccessIn att n urls = none →
      (tryRound att n urls last).2.1 =
        ((urls.filterMap fun u => errOf (att n u)).getLast?).or last := by
  intro urls
  induction urls with
  | nil => intro last _; rfl
  | cons u rest ih =>
      intro last hfail
      unfold firstSuccessIn at hfail
      unfold tryRound
      cases h : att n u with
      | ok v => rw [h] at hfail; exact absurd hfail (by simp)
      | error e =>
          rw [h] at hfail
          have hrest : firstSuccessIn att n rest = none := hfail
          have stepEq : ((u :: rest).filterMap fun w => errOf (att n w)) =
              e :: rest.filterMap fun w => errOf (att n w) := by
            simp [List.filterMap_cons, h, errOf]
          rw [stepEq]
          simp only [ih (some e) hrest]
          have hcons : (e :: rest.filterMap fun w => errOf (att n w)).getLast? =
              ((rest.filterMap fun w => errOf (att n w)).getLast?).or (some e) := by
            rw [show (e :: rest.filterMap fun w => errOf (att n w)) =
              [e] ++ rest.filterMap fun w => errOf (att n w) by rfl]
            rw [List.getLast?_append]
            rfl
          rw [hcons, Option.or_assoc]
          simp

/-- Full characterization of the retry loop on an arbitrary round list,
with the incoming `last_exc` as fallback error. -/
theorem postRounds_eq (att : MirrorOracle E R) (urls : List String) (rts : ℕ)
    (backoff : List ℕ) :
    ∀ (rounds : List ℕ) (last : Option E),
      postRounds att urls rts backoff rounds last =
        ((match rounds.findSome? (fun n => firstSuccessIn att n urls) with
          | some v => .ok v
          | none =>
              match ((rounds.flatMap fun n =>
                  urls.filterMap fun u => errOf (att n u)).getLast?).or last with
              | some e => .error (.exc e)
              | none => .error .noAttempt),
         specTrace att urls rts backoff rounds) := by
  intro rounds
  induction rounds with
  | nil =>
      intro last
      cases last <;> rfl
  | cons a rest ih =>
      intro last
      unfold postRounds specTrace
      rcases htr : tryRound att a urls last with ⟨o, l2, evs⟩
      have h1 := tryRound_fst att a urls last
      have h2 := tryRound_trace att a urls last
      rw [htr] at h1 h2
      simp only at h1 h2
      cases hs : firstSuccessIn att a urls with
      | some v =>
          rw [hs] at h1
          subst h1 h2
          simp only [List.findSome?_cons, hs]
      | none =>
          rw [hs] at h1
          subst h1 h2
          have h3 := tryRound_last att a urls last hs
          rw [htr] at h3
          simp only at h3
          subst h3
          have hfs : (a :: rest).findSome? (fun n => firstSuccessIn att n urls) =
              rest.findSome? fun n => firstSuccessIn att n urls := by
            simp [List.findSome?_cons, hs]
          have herr : (((a :: rest).flatMap fun n =>
              urls.filterMap fun u => errOf (att n u)).getLast?).or last =
              ((rest.flatMap fun n =>
                urls.filterMap fun u => errOf (att n u)).getLast?).or
                  (((urls.filterMap fun u => errOf (att a u)).getLast?).or last) := by
            rw [List.flatMap_cons, List.getLast?_append, Option.or_assoc]
          by_cases ha : a < rts
          · simp only [if_pos ha, ih]
            rw [hfs, herr]
            simp
          · simp only [if_neg ha, ih]
            rw [hfs, herr]
            simp

/-- C5: `overpass_post` implements the documented retry contract — at most
`retries + 1` rounds; inside a round every configured mirror is tried in
order and the first successful parsed response is returned; a backoff sleep
of `backoff[min(round, len(backoff) - 1)]` seconds happens exactly between
consecutive rounds (never between mirrors, never after the last round); and
an error is raised iff every mirror fails in every round, in which case it
is the last error encountered.  (`specResult`/`specTrace` state exactly
that policy; the backoff schedule resolved from the environment is never
empty.) -/
theorem overpass_post_contract (att : MirrorOracle E R) (rts : ℕ)
    (backoff : List ℕ) (_hb : backoff ≠ []) :
    overpass_post att rts backoff =
      (specResult att OVERPASS_URLS (List.range (rts + 1)),
       specTrace att OVERPASS_URLS rts backoff (List.range (rts + 1))) := by
  unfold overpass_post specResult
  rw [postRounds_eq]
  simp

/-- C5 (witness): a concrete oracle failing everywhere except the third
mirror of round 1, with the default backoff schedule; the contract equation
holds and the loop indeed returns that success. -/
theorem overpass_post_contract_witness :
    overpass_post attW 2 [1, 3, 6] =
      (specResult attW OVERPASS_URLS (List.range (2 + 1)),
       specTrace attW OVERPASS_URLS 2 [1, 3, 6] (List.range (2 + 1))) ∧
    (overpass_post attW 2 [1, 3, 6]).1 = .ok 7 :=
  ⟨overpass_post_contract attW 2 [1, 3, 6] (by decide), by rfl⟩

/-! ### Equatorial geometry: exact evaluations used by concrete inputs -/

/-- Zero degrees is zero radians. -/
theorem radians_zero : radians 0 = 0 := by simp [radians]

/-- The latitude scale factor at the equator is exact. -/
theorem mPerDegLat_zero : mPerDegLat 0 = 110574.275 := by
  unfold mPerDegLat
  norm_num [Real.cos_zero]

/-- The longitude scale factor at the equator is exact. -/
theorem mPerDegLon_zero : mPerDegLon 0 = 111319.34 := by
  unfold mPerDegLon
  norm_num [Real.cos_zero]

/-- On the equator the haversine distance is exactly the radius times the
longitude difference in radians (for differences between 0 and 90 degrees). -/
theorem haversine_equator (a b : ℝ) (h1 : 0 ≤ b - a) (h2 : b - a ≤ 90) :
    haversine_m 0 a 0 b = 6371000 * radians (b - a) := by
  have hpi := Real.pi_pos
  unfold haversine_m
  simp only [radians_zero, sub_zero, Real.sin_zero, Real.cos_zero]
  set th := radians (b - a) / 2 with hth
  have hth0 : 0 ≤ th := by
    rw [hth]
    unfold radians
    positivity
  have hthlt : th < Real.pi / 2 := by
    rw [hth]
    unfold radians
    rw [div_lt_iff₀ (by norm_num : (0:ℝ) < 2)] at *
    nlinarith [Real.pi_pos]
  have hsin0 : 0 ≤ Real.sin th :=
    Real.sin_nonneg_of_nonneg_of_le_pi hth0 (by linarith)
  have hcos0 : 0 < Real.cos th :=
    Real.cos_pos_of_mem_Ioo ⟨by linarith, hthlt⟩
  simp only [zero_div, Real.sin_zero]
  have hsq : Real.sqrt ((0 : ℝ) ^ 2 + 1 * 1 * Real.sin th ^ 2) = Real.sin th := by
    rw [show (0:ℝ) ^ 2 + 1 * 1 * Real.sin th ^ 2 = Real.sin th ^ 2 by ring]
    exact Real.sqrt_sq hsin0
  have hsq2 : Real.sqrt (1 - ((0 : ℝ) ^ 2 + 1 * 1 * Real.sin th ^ 2)) =
      Real.cos th := by
    rw [show (1:ℝ) - ((0:ℝ) ^ 2 + 1 * 1 * Real.sin th ^ 2) = Real.cos th ^ 2 by
      have := Real.sin_sq_add_cos_sq th
      linarith]
    exact Real.sqrt_sq hcos0.le
  rw [hsq, hsq2]
  unfold atan2
  rw [if_pos hcos0]
  rw [← Real.tan_eq_sin_div_cos]
  rw [Real.arctan_tan (by linarith) hthlt]
  rw [hth]
  ring

/-- On the equator the haversine distance is symmetric in the two
longitudes (the latitude terms vanish and the longitude term is even). -/
theorem haversine_equator_symm (a b : ℝ) :
    haversine_m 0 a 0 b = haversine_m 0 b 0 a := by
  unfold haversine_m radians
  have h : Real.sin ((b - a) * Real.pi / 180 / 2) ^ 2 =
      Real.sin ((a - b) * Real.pi / 180 / 2) ^ 2 := by
    rw [show (b - a) * Real.pi / 180 / 2 = -((a - b) * Real.pi / 180 / 2) by ring,
      Real.sin_neg]
    ring
  simp only [h]

/-- Projection of an equatorial point onto an equatorial segment whose
unclamped parameter `(x - a)/(b - a)` already lies in `[0, 1]`: the planar
distance is `0` and the arc position is the parameter times the scaled
segment length. -/
theorem fracSegDS_equator (x a b cdi : ℝ)
    (hgap : 1e-9 < (111319.34 * (b - a)) ^ 2)
    (ht0 : 0 ≤ (x - a) / (b - a)) (ht1 : (x - a) / (b - a) ≤ 1) :
    fracSegDS ((0 : ℝ), x) ((0 : ℝ), a) ((0 : ℝ), b) cdi =
      (0, cdi + (x - a) / (b - a) * (111319.34 * |b - a|)) := by
  have hba : b - a ≠ 0 := by
    intro h
    rw [h] at hgap
    norm_num at hgap
  have ht : (x - a) / (b - a) * (b - a) = x - a := div_mul_cancel₀ _ hba
  unfold fracSegDS
  simp only [show ((0:ℝ) + 0) / 2 = 0 from by norm_num, radians_zero,
    mPerDegLat_zero, mPerDegLon_zero]
  rw [if_neg (by
    rw [show (b * 111319.34 - a * 111319.34) * (b * 111319.34 - a * 111319.34) +
      (0 * 110574.275 - 0 * 110574.275) * (0 * 110574.275 - 0 * 110574.275) =
        (111319.34 * (b - a)) ^ 2 from by ring]
    exact not_le.mpr hgap)]
  have htval : ((x * 111319.34 - a * 111319.34) * (b * 111319.34 - a * 111319.34) +
      (0 * 110574.275 - 0 * 110574.275) * (0 * 110574.275 - 0 * 110574.275)) /
        ((b * 111319.34 - a * 111319.34) * (b * 111319.34 - a * 111319.34) +
          (0 * 110574.275 - 0 * 110574.275) * (0 * 110574.275 - 0 * 110574.275)) =
      (x - a) / (b - a) := by
    rw [show (x * 111319.34 - a * 111319.34) * (b * 111319.34 - a * 111319.34) +
      (0 * 110574.275 - 0 * 110574.275) * (0 * 110574.275 - 0 * 110574.275) =
        ((x - a) * (b - a)) * 111319.34 ^ 2 from by ring]
    rw [show (b * 111319.34 - a * 111319.34) * (b * 111319.34 - a * 111319.34) +
      (0 * 110574.275 - 0 * 110574.275) * (0 * 110574.275 - 0 * 110574.275) =
        ((b - a) * (b - a)) * 111319.34 ^ 2 from by ring]
    rw [mul_div_mul_right _ _ (by norm_num : (111319.34 : ℝ) ^ 2 ≠ 0)]
    rw [mul_div_mul_right _ _ hba]
  rw [htval]
  have hclamp : max 0 (min 1 ((x - a) / (b - a))) = (x - a) / (b - a) := by
    rw [min_eq_right ht1, max_eq_right ht0]
  rw [hclamp]
  rw [show x * 111319.34 - (a * 111319.34 + (x - a) / (b - a) *
      (b * 111319.34 - a * 111319.34)) = 0 from by linear_combination (-111319.34) * ht]
  rw [show (0 : ℝ) * 110574.275 - (0 * 110574.275 + (x - a) / (b - a) *
      (0 * 110574.275 - 0 * 110574.275)) = 0 from by ring]
  rw [show hypot 0 0 = 0 from by unfold hypot; norm_num]
  rw [show hypot (b * 111319.34 - a * 111319.34)
      (0 * 110574.275 - 0 * 110574.275) = 111319.34 * |b - a| from by
    unfold hypot
    rw [show (b * 111319.34 - a * 111319.34) ^ 2 +
        (0 * 110574.275 - 0 * 110574.275) ^ 2 = (111319.34 * (b - a)) ^ 2 from by ring]
    rw [Real.sqrt_sq_eq_abs, abs_mul]
    norm_num]

/-- A point of the equator whose unclamped projection parameter onto an
equatorial segment lies in `[0, 1]` has planar distance `0` from it. -/
theorem pt2seg_equator (x a b : ℝ)
    (hgap : 1e-9 < (111319.34 * (b - a)) ^ 2)
    (ht0 : 0 ≤ (x - a) / (b - a)) (ht1 : (x - a) / (b - a) ≤ 1) :
    point_to_segment_distance_m ((0 : ℝ), x) ((0 : ℝ), a) ((0 : ℝ), b) = 0 := by
  have hba : b - a ≠ 0 := by
    intro h
    rw [h] at hgap
    norm_num at hgap
  have ht : (x - a) / (b - a) * (b - a) = x - a := div_mul_cancel₀ _ hba
  unfold point_to_segment_distance_m
  simp only [show ((0:ℝ) + 0) / 2 = 0 from by norm_num, radians_zero,
    mPerDegLat_zero, mPerDegLon_zero]
  rw [if_neg (by
    rw [show (b * 111319.34 - a * 111319.34) * (b * 111319.34 - a * 111319.34) +
      (0 * 110574.275 - 0 * 110574.275) * (0 * 110574.275 - 0 * 110574.275) =
        (111319.34 * (b - a)) ^ 2 from by ring]
    exact not_le.mpr hgap)]
  have htval : ((x * 111319.34 - a * 111319.34) * (b * 111319.34 - a * 111319.34) +
      (0 * 110574.275 - 0 * 110574.275) * (0 * 110574.275 - 0 * 110574.275)) /
        ((b * 111319.34 - a * 111319.34) * (b * 111319.34 - a * 111319.34) +
          (0 * 110574.275 - 0 * 110574.275) * (0 * 110574.275 - 0 * 110574.275)) =
      (x - a) / (b - a) := by
    rw [show (x * 111319.34 - a * 111319.34) * (b * 111319.34 - a * 111319.34) +
      (0 * 110574.275 - 0 * 110574.275) * (0 * 110574.275 - 0 * 110574.275) =
        ((x - a) * (b - a)) * 111319.34 ^ 2 from by ring]
    rw [show (b * 111319.34 - a * 111319.34) * (b * 111319.34 - a * 111319.34) +
      (0 * 110574.275 - 0 * 110574.275) * (0 * 110574.275 - 0 * 110574.275) =
        ((b - a) * (b - a)) * 111319.34 ^ 2 from by ring]
    rw [mul_div_mul_right _ _ (by norm_num : (111319.34 : ℝ) ^ 2 ≠ 0)]
    rw [mul_div_mul_right _ _ hba]
  rw [htval]
  rw [min_eq_right ht1, max_eq_right ht0]
  rw [show x * 111319.34 - (a * 111319.34 + (x - a) / (b - a) *
      (b * 111319.34 - a * 111319.34)) = 0 from by linear_combination (-111319.34) * ht]
  rw [show (0 : ℝ) * 110574.275 - (0 * 110574.275 + (x - a) / (b - a) *
      (0 * 110574.275 - 0 * 110574.275)) = 0 from by ring]
  unfold hypot
  norm_num

/-- With a positive scale the decay is the exponential of the clamped
distance. -/
theorem exp_decay_pos_scale (d tau : ℝ) (h : 1e-9 < tau) :
    exp_decay d tau = Real.exp (-(max 0 d) / tau) := by
  unfold exp_decay
  rw [if_neg (not_le.mpr h)]

/-- With a positive scale the decay at distance zero is one. -/
theorem exp_decay_at_zero (tau : ℝ) (h : 1e-9 < tau) : exp_decay 0 tau = 1 := by
  rw [exp_decay_pos_scale 0 tau h]
  norm_num

/-- `atan2` of a non-negative ordinate is non-negative. -/
theorem atan2_nonneg (y x : ℝ) (hy : 0 ≤ y) : 0 ≤ atan2 y x := by
  unfold atan2
  have hpi := Real.pi_pos
  have harct : ∀ z : ℝ, 0 ≤ z → 0 ≤ Real.arctan z := fun z hz => by
    rw [show (0:ℝ) = Real.arctan 0 by simp]
    exact Real.arctan_strictMono.monotone hz
  by_cases hx : 0 < x
  · rw [if_pos hx]
    exact harct _ (div_nonneg hy hx.le)
  · rw [if_neg hx]
    by_cases hx2 : x < 0
    · rw [if_pos hx2, if_pos hy]
      have := Real.neg_pi_div_two_lt_arctan (y / x)
      linarith
    · rw [if_neg hx2]
      by_cases hy1 : 0 < y
      · rw [if_pos hy1]; linarith
      · rw [if_neg hy1, if_neg (by linarith : ¬ y < 0)]

/-- Haversine distances are non-negative. -/
theorem haversine_nonneg (lat1 lon1 lat2 lon2 : ℝ) :
    0 ≤ haversine_m lat1 lon1 lat2 lon2 := by
  unfold haversine_m
  have := atan2_nonneg (Real.sqrt (Real.sin ((radians lat2 - radians lat1) / 2) ^ 2 +
      Real.cos (radians lat1) * Real.cos (radians lat2) *
        Real.sin (radians (lon2 - lon1) / 2) ^ 2))
      (Real.sqrt (1 - (Real.sin ((radians lat2 - radians lat1) / 2) ^ 2 +
        Real.cos (radians lat1) * Real.cos (radians lat2) *
          Real.sin (radians (lon2 - lon1) / 2) ^ 2)))
      (Real.sqrt_nonneg _)
  positivity

/-- One-degree equatorial leg in closed form. -/
theorem uleg_eq : haversine_m 0 0 0 1 = 6371000 * radians 1 := by
  have := haversine_equator 0 1 (by norm_num) (by norm_num)
  simpa using this

/-- Crude numeric bounds for the one-degree equatorial leg. -/
theorem uleg_bounds : 106183 ≤ haversine_m 0 0 0 1 ∧ haversine_m 0 0 0 1 ≤ 111493 := by
  rw [uleg_eq]
  unfold radians
  constructor
  · nlinarith [Real.pi_gt_three]
  · nlinarith [Real.pi_lt_d2]

/-- Cumulative distances of a two-point path. -/
theorem cumdist_pair (p q : GeoPoint) :
    path_cumdist_m [p, q] = [0, haversine_m p.1 p.2 q.1 q.2] := by
  simp [path_cumdist_m, cumdistAux]

/-- Total length of a two-point path. -/
theorem total_pair (p q : GeoPoint) :
    pathTotal [p, q] = haversine_m p.1 p.2 q.1 q.2 := by
  unfold pathTotal
  rw [cumdist_pair]
  rfl

/-- Midpoint of a non-degenerate two-point path: linear interpolation at
one half. -/
theorem midpoint_pair (p q : GeoPoint)
    (h : ¬ haversine_m p.1 p.2 q.1 q.2 ≤ 1e-9) :
    path_midpoint [p, q] =
      (p.1 + 0.5 * (q.1 - p.1), p.2 + 0.5 * (q.2 - p.2)) := by
  have hu0 : 0 ≤ haversine_m p.1 p.2 q.1 q.2 := haversine_nonneg _ _ _ _
  have hne : haversine_m p.1 p.2 q.1 q.2 ≠ 0 := by
    intro hz; rw [hz] at h; norm_num at h
  have step : path_midpoint [p, q] =
      (if pathTotal [p, q] ≤ 1e-9 then [p, q].getD ([p, q].length / 2) (0, 0)
       else seekInterp (0.5 * pathTotal [p, q]) p 0
         ([q].zip (path_cumdist_m [p, q]).tail)) := rfl
  rw [step, total_pair]
  rw [if_neg h]
  rw [cumdist_pair]
  simp only [List.tail_cons, List.zip_cons_cons, List.zip_nil_right, seekInterp]
  rw [if_pos (by nlinarith : (0.5 : ℝ) * haversine_m p.1 p.2 q.1 q.2 ≤
    haversine_m p.1 p.2 q.1 q.2)]
  rw [if_neg (by
    intro hc
    rw [sub_zero] at hc
    exact h hc)]
  rw [show (0.5 * haversine_m p.1 p.2 q.1 q.2 - 0) /
      (haversine_m p.1 p.2 q.1 q.2 - 0) = 0.5 from by
    rw [sub_zero, sub_zero, mul_div_assoc, div_self hne, mul_one]]

/-- The minimum distance to a two-point path is the distance to its only
segment. -/
theorem mindist_pair (v p q : GeoPoint) :
    min_distance_to_path_m v [p, q] = point_to_segment_distance_m v p q := by
  simp [min_distance_to_path_m]

/-- Path fraction along a non-degenerate two-point path: arc position of
the projection onto the only segment, normalized and clamped. -/
theorem frac_pair (v p q : GeoPoint) (h : ¬ pathTotal [p, q] ≤ 1e-9) :
    path_fraction_at_point v [p, q] =
      max 0 (min 1 ((fracSegDS v p q 0).2 / pathTotal [p, q])) := by
  have hpos : 0 < pathTotal [p, q] := by
    push_neg at h
    linarith
  unfold path_fraction_at_point
  rw [if_neg (by norm_num)]
  rw [if_neg h]
  rw [cumdist_pair]
  show (match fracStep v none ((p, q), 0) with
    | none => 0.5
    | some (_, bs) => max 0 (min 1 (if 0 < pathTotal [p, q] then bs / pathTotal [p, q] else 0.5))) =
      max 0 (min 1 ((fracSegDS v p q 0).2 / pathTotal [p, q]))
  unfold fracStep
  simp only [if_pos hpos]

/-- Distance from the on-path point `(0, 0.5)` to `pathAB` is zero. -/
theorem mindist_pathAB_half :
    min_distance_to_path_m ((0 : ℝ), (0.5 : ℝ)) pathAB = 0 := by
  show min_distance_to_path_m ((0 : ℝ), (0.5 : ℝ))
    [((0 : ℝ), (0 : ℝ)), ((0 : ℝ), (1 : ℝ))] = 0
  rw [mindist_pair]
  exact pt2seg_equator 0.5 0 1 (by norm_num) (by norm_num) (by norm_num)

/-- The midpoint of `pathAB` is `(0, 0.5)`. -/
theorem midpoint_pathAB : path_midpoint pathAB = ((0 : ℝ), (0.5 : ℝ)) := by
  show path_midpoint [((0 : ℝ), (0 : ℝ)), ((0 : ℝ), (1 : ℝ))] = ((0 : ℝ), (0.5 : ℝ))
  rw [midpoint_pair _ _ (by
    show ¬ haversine_m 0 0 0 1 ≤ 1e-9
    have := uleg_bounds.1
    intro hc
    linarith)]
  norm_num

/-- The zero-distance haversine on the equator. -/
theorem haversine_same_half : haversine_m 0 0.5 0 0.5 = 0 := by
  have := haversine_equator 0.5 0.5 (by norm_num) (by norm_num)
  simpa [radians] using this

/-- The path fraction of `(0, 0.5)` along `pathAB` is strictly between 10%
and 90%. -/
theorem frac_pathAB_half :
    0.10 < path_fraction_at_point ((0 : ℝ), (0.5 : ℝ)) pathAB ∧
      path_fraction_at_point ((0 : ℝ), (0.5 : ℝ)) pathAB < 0.90 := by
  have hub := uleg_bounds
  have htot : pathTotal [((0 : ℝ), (0 : ℝ)), ((0 : ℝ), (1 : ℝ))] =
      haversine_m 0 0 0 1 := by
    rw [total_pair]
  have hfr : path_fraction_at_point ((0 : ℝ), (0.5 : ℝ)) pathAB =
      max 0 (min 1 ((fracSegDS ((0 : ℝ), (0.5 : ℝ)) ((0 : ℝ), (0 : ℝ))
        ((0 : ℝ), (1 : ℝ)) 0).2 / pathTotal [((0 : ℝ), (0 : ℝ)), ((0 : ℝ), (1 : ℝ))])) := by
    show path_fraction_at_point ((0 : ℝ), (0.5 : ℝ))
      [((0 : ℝ), (0 : ℝ)), ((0 : ℝ), (1 : ℝ))] = _
    exact frac_pair _ _ _ (by rw [htot]; intro hc; linarith [hub.1])
  rw [hfr, htot]
  rw [fracSegDS_equator 0.5 0 1 0 (by norm_num) (by norm_num) (by norm_num)]
  have hupos : (0 : ℝ) < haversine_m 0 0 0 1 := by linarith [hub.1]
  have hval : ((0 : ℝ) + (0.5 - 0) / (1 - 0) * (111319.34 * |(1 : ℝ) - 0|)) =
      55659.67 := by norm_num
  rw [hval]
  have h1 : (0.10 : ℝ) < 55659.67 / haversine_m 0 0 0 1 := by
    rw [lt_div_iff₀ hupos]
    nlinarith [hub.2]
  have h2 : (55659.67 : ℝ) / haversine_m 0 0 0 1 < 0.90 := by
    rw [div_lt_iff₀ hupos]
    nlinarith [hub.1]
  have h3 : (55659.67 : ℝ) / haversine_m 0 0 0 1 ≤ 1 := by linarith
  have h4 : (0 : ℝ) ≤ 55659.67 / haversine_m 0 0 0 1 := by linarith
  rw [min_eq_right h3, max_eq_right h4]
  exact ⟨h1, h2⟩

/-- C2 (counterexample): with the empty weight mapping — whose non-negative
weight sum is zero — the code normalizes by `1` (the `or 1.0` fallback), so
`total_score_norm` is `1` for this candidate while the claimed formula
`clamp(total_score / sum(max(0, w)), 0, 1)` evaluates to `0` (the quotient
with the zero divisor is zero).  The candidate sits at the middle of the
short equatorial path with neutral landuse and no buildings. -/
theorem score_norm_claim_cex :
    (score_candidate ((0 : ℝ), (0.5 : ℝ)) pathAB [] [] [] [] [] []
        ((0.5 : ℝ), none) 0).total_score_norm ≠
      max 0 (min 1 ((score_candidate ((0 : ℝ), (0.5 : ℝ)) pathAB [] [] [] [] [] []
        ((0.5 : ℝ), none) 0).total_score / weightNonnegSum [])) := by
  have hw : weightNonnegSum ([] : List (String × ℝ)) = 0 := by
    simp [weightNonnegSum]
  rw [hw, div_zero]
  rw [show max (0 : ℝ) (min 1 0) = 0 by norm_num]
  suffices h : (score_candidate ((0 : ℝ), (0.5 : ℝ)) pathAB [] [] [] [] [] []
      ((0.5 : ℝ), none) 0).total_score_norm = 1 by
    rw [h]; norm_num
  have e1 : exp_decay (min_distance_to_path_m ((0 : ℝ), (0.5 : ℝ)) pathAB) 1500.0 = 1 := by
    rw [mindist_pathAB_half]
    exact exp_decay_at_zero _ (by norm_num)
  have e2 : exp_decay (haversine_m ((0 : ℝ), (0.5 : ℝ)).1 ((0 : ℝ), (0.5 : ℝ)).2
      (path_midpoint pathAB).1 (path_midpoint pathAB).2) 25000.0 = 1 := by
    rw [midpoint_pathAB]
    show exp_decay (haversine_m 0 0.5 0 0.5) 25000.0 = 1
    rw [haversine_same_half]
    exact exp_decay_at_zero _ (by norm_num)
  have hfrac := frac_pathAB_half
  simp only [score_candidate, e1, e2]
  rw [hw]
  rw [if_pos rfl, div_one]
  rw [if_neg (by norm_num : ¬ ((0.5 : ℝ), (none : Option String)).1 ≤ 0.05)]
  rw [if_neg (by
    push_neg
    exact ⟨hfrac.1, hfrac.2⟩)]
  rw [if_pos (by norm_num : (0 : ℕ) ≤ 2)]
  have hq := exp_decay_nonneg (nearest_distance_m ((0 : ℝ), (0.5 : ℝ)) []) 50000.0
  have hh := exp_decay_nonneg (nearest_distance_m ((0 : ℝ), (0.5 : ℝ)) []) 8000.0
  have hb := exp_decay_nonneg (nearest_distance_m ((0 : ℝ), (0.5 : ℝ)) []) 80000.0
  have hbase : (1 : ℝ) ≤ (wget [] "road_proximity" 5.0 * 1 +
      wget [] "midpoint_preference" 4.0 * 1 +
      wget [] "quarry_proximity" 2.0 * exp_decay (nearest_distance_m ((0 : ℝ), (0.5 : ℝ)) []) 50000.0 +
      wget [] "rubber_proximity" 1.0 * exp_decay (nearest_distance_m ((0 : ℝ), (0.5 : ℝ)) []) 50000.0 +
      wget [] "landuse_preference" 3.0 * ((0.5 : ℝ), (none : Option String)).1 +
      wget [] "highway_proximity" 2.5 * exp_decay (nearest_distance_m ((0 : ℝ), (0.5 : ℝ)) []) 8000.0 +
      wget [] "bitumen_source_proximity" 1.0 * exp_decay (nearest_distance_m ((0 : ℝ), (0.5 : ℝ)) []) 80000.0) * 1.0 := by
    simp only [wget, List.lookup_nil, Option.getD_none]
    norm_num
    nlinarith
  rw [min_eq_left hbase]
  norm_num

/-! ### C7 — edge penalty (zig-zag path machinery) -/

/-- Cumulative distances of the zig-zag path: three equal one-degree legs. -/
theorem cumdist_zig : path_cumdist_m pathZig =
    [0, haversine_m 0 0 0 1, 2 * haversine_m 0 0 0 1, 3 * haversine_m 0 0 0 1] := by
  show path_cumdist_m
    [((0:ℝ), (0:ℝ)), ((0:ℝ), (1:ℝ)), ((0:ℝ), (0:ℝ)), ((0:ℝ), (1:ℝ))] = _
  simp only [path_cumdist_m, cumdistAux]
  rw [haversine_equator_symm 1 0]
  norm_num
  constructor
  · ring
  · ring

/-- Total length of the zig-zag path. -/
theorem total_zig : pathTotal pathZig = 3 * haversine_m 0 0 0 1 := by
  unfold pathTotal
  rw [cumdist_zig]
  rfl

/-- The zig-zag total is far from degenerate. -/
theorem total_zig_large : ¬ pathTotal pathZig ≤ 1e-9 := by
  rw [total_zig]
  have := uleg_bounds.1
  intro hc
  nlinarith

/-- The length-weighted midpoint of the zig-zag path is `(0, 0.5)` (half the
total length falls in the middle of the second leg). -/
theorem midpoint_zig : path_midpoint pathZig = ((0 : ℝ), (0.5 : ℝ)) := by
  have hub := uleg_bounds
  have hu9 : (1e-9 : ℝ) < haversine_m 0 0 0 1 := by linarith [hub.1]
  have step : path_midpoint pathZig =
      (if pathTotal pathZig ≤ 1e-9 then pathZig.getD (pathZig.length / 2) (0, 0)
       else seekInterp (0.5 * pathTotal pathZig) ((0:ℝ), (0:ℝ)) 0
         ([((0:ℝ), (1:ℝ)), ((0:ℝ), (0:ℝ)), ((0:ℝ), (1:ℝ))].zip
           (path_cumdist_m pathZig).tail)) := rfl
  rw [step, if_neg total_zig_large, total_zig, cumdist_zig]
  simp only [List.tail_cons, List.zip_cons_cons, List.zip_nil_right, seekInterp]
  rw [if_neg (by nlinarith : ¬ (0.5 : ℝ) * (3 * haversine_m 0 0 0 1) ≤
    haversine_m 0 0 0 1)]
  rw [if_pos (by nlinarith : (0.5 : ℝ) * (3 * haversine_m 0 0 0 1) ≤
    2 * haversine_m 0 0 0 1)]
  rw [if_neg (by
    intro hc
    nlinarith : ¬ 2 * haversine_m 0 0 0 1 - haversine_m 0 0 0 1 ≤ 1e-9)]
  have ht : (0.5 * (3 * haversine_m 0 0 0 1) - haversine_m 0 0 0 1) /
      (2 * haversine_m 0 0 0 1 - haversine_m 0 0 0 1) = 0.5 := by
    rw [show 0.5 * (3 * haversine_m 0 0 0 1) - haversine_m 0 0 0 1 =
      0.5 * haversine_m 0 0 0 1 from by ring]
    rw [show 2 * haversine_m 0 0 0 1 - haversine_m 0 0 0 1 =
      haversine_m 0 0 0 1 from by ring]
    rw [mul_div_assoc, div_self (by linarith : haversine_m 0 0 0 1 ≠ 0), mul_one]
  rw [ht]
  norm_num

/-- Any equator point with longitude in `[0, 1]` lies on the zig-zag path. -/
theorem mindist_zig (x : ℝ) (h0 : 0 ≤ x) (h1 : x ≤ 1) :
    min_distance_to_path_m ((0 : ℝ), x) pathZig = 0 := by
  have e1 : point_to_segment_distance_m ((0:ℝ), x) ((0:ℝ), (0:ℝ)) ((0:ℝ), (1:ℝ)) = 0 :=
    pt2seg_equator x 0 1 (by norm_num)
      (by rw [show (x - 0) / ((1:ℝ) - 0) = x from by norm_num]; exact h0)
      (by rw [show (x - 0) / ((1:ℝ) - 0) = x from by norm_num]; exact h1)
  have e2 : point_to_segment_distance_m ((0:ℝ), x) ((0:ℝ), (1:ℝ)) ((0:ℝ), (0:ℝ)) = 0 :=
    pt2seg_equator x 1 0 (by norm_num)
      (by rw [show (x - 1) / ((0:ℝ) - 1) = 1 - x from by ring]; linarith)
      (by rw [show (x - 1) / ((0:ℝ) - 1) = 1 - x from by ring]; linarith)
  show min_distance_to_path_m ((0 : ℝ), x)
    [((0:ℝ), (0:ℝ)), ((0:ℝ), (1:ℝ)), ((0:ℝ), (0:ℝ)), ((0:ℝ), (1:ℝ))] = 0
  unfold min_distance_to_path_m
  simp only [List.zip_cons_cons, List.tail_cons, List.zip_nil_right, List.foldl]
  rw [e1, e2]
  norm_num

/-- The path fraction of an equator point with longitude in `[0, 1]` along
the zig-zag path: arc position on the first leg over the total length. -/
theorem frac_zig (x : ℝ) (h0 : 0 ≤ x) (h1 : x ≤ 1) :
    path_fraction_at_point ((0 : ℝ), x) pathZig =
      max 0 (min 1 (x * 111319.34 / (3 * haversine_m 0 0 0 1))) := by
  have hub := uleg_bounds
  have e1 := fracSegDS_equator x 0 1 0 (by norm_num)
    (by rw [show (x - 0) / ((1:ℝ) - 0) = x from by norm_num]; exact h0)
    (by rw [show (x - 0) / ((1:ℝ) - 0) = x from by norm_num]; exact h1)
  have e2 := fracSegDS_equator x 1 0 (haversine_m 0 0 0 1) (by norm_num)
    (by rw [show (x - 1) / ((0:ℝ) - 1) = 1 - x from by ring]; linarith)
    (by rw [show (x - 1) / ((0:ℝ) - 1) = 1 - x from by ring]; linarith)
  have e3 := fracSegDS_equator x 0 1 (2 * haversine_m 0 0 0 1) (by norm_num)
    (by rw [show (x - 0) / ((1:ℝ) - 0) = x from by norm_num]; exact h0)
    (by rw [show (x - 0) / ((1:ℝ) - 0) = x from by norm_num]; exact h1)
  unfold path_fraction_at_point
  rw [if_neg (by norm_num [pathZig])]
  rw [if_neg total_zig_large]
  have hsegs : ((pathZig.zip pathZig.tail).zip (path_cumdist_m pathZig)) =
      [((((0:ℝ), (0:ℝ)), ((0:ℝ), (1:ℝ))), (0:ℝ)),
       ((((0:ℝ), (1:ℝ)), ((0:ℝ), (0:ℝ))), haversine_m 0 0 0 1),
       ((((0:ℝ), (0:ℝ)), ((0:ℝ), (1:ℝ))), 2 * haversine_m 0 0 0 1)] := by
    rw [cumdist_zig]
    rfl
  rw [hsegs]
  simp only [List.foldl]
  rw [show fracStep ((0:ℝ), x) none ((((0:ℝ), (0:ℝ)), ((0:ℝ), (1:ℝ))), (0:ℝ)) =
    some (fracSegDS ((0:ℝ), x) ((0:ℝ), (0:ℝ)) ((0:ℝ), (1:ℝ)) 0) from rfl]
  rw [e1]
  rw [show fracStep ((0:ℝ), x)
      (some (0, 0 + (x - 0) / (1 - 0) * (111319.34 * |(1:ℝ) - 0|)))
      ((((0:ℝ), (1:ℝ)), ((0:ℝ), (0:ℝ))), haversine_m 0 0 0 1) =
    (if (fracSegDS ((0:ℝ), x) ((0:ℝ), (1:ℝ)) ((0:ℝ), (0:ℝ))
        (haversine_m 0 0 0 1)).1 < 0 then
      some (fracSegDS ((0:ℝ), x) ((0:ℝ), (1:ℝ)) ((0:ℝ), (0:ℝ)) (haversine_m 0 0 0 1))
     else some (0, 0 + (x - 0) / (1 - 0) * (111319.34 * |(1:ℝ) - 0|))) from rfl]
  rw [e2]
  rw [if_neg (by norm_num)]
  rw [show fracStep ((0:ℝ), x)
      (some (0, 0 + (x - 0) / (1 - 0) * (111319.34 * |(1:ℝ) - 0|)))
      ((((0:ℝ), (0:ℝ)), ((0:ℝ), (1:ℝ))), 2 * haversine_m 0 0 0 1) =
    (if (fracSegDS ((0:ℝ), x) ((0:ℝ), (0:ℝ)) ((0:ℝ), (1:ℝ))
        (2 * haversine_m 0 0 0 1)).1 < 0 then
      some (fracSegDS ((0:ℝ), x) ((0:ℝ), (0:ℝ)) ((0:ℝ), (1:ℝ)) (2 * haversine_m 0 0 0 1))
     else some (0, 0 + (x - 0) / (1 - 0) * (111319.34 * |(1:ℝ) - 0|))) from rfl]
  rw [e3]
  rw [if_neg (by norm_num)]
  rw [total_zig]
  show max 0 (min 1 (if (0:ℝ) < 3 * haversine_m 0 0 0 1 then
      (0 + (x - 0) / (1 - 0) * (111319.34 * |(1:ℝ) - 0|)) /
        (3 * haversine_m 0 0 0 1) else 0.5)) =
    max 0 (min 1 (x * 111319.34 / (3 * haversine_m 0 0 0 1)))
  rw [if_pos (by nlinarith [hub.1] : (0:ℝ) < 3 * haversine_m 0 0 0 1)]
  rw [show (0 : ℝ) + (x - 0) / (1 - 0) * (111319.34 * |(1:ℝ) - 0|) =
    x * 111319.34 from by rw [abs_of_nonneg (by norm_num : (0:ℝ) ≤ (1:ℝ) - 0)]; ring]

/-- C7: two candidates with identical factor scores, the same landuse result
(score above the `0.05` clamp) and the same building count, one sitting at a
path fraction in the edge zone (≤ 10% or ≥ 90%) and the other strictly
inside it, have totals related exactly by the `0.2` edge factor: the edge
candidate's `total_score` equals — hence is at most — `0.2` times the
interior candidate's. -/
theorem edge_penalty_factor (p1 p2 : GeoPoint) (path : List GeoPoint)
    (quarries rubbers highways ready_mix bitumen_sources : List OsmFacility)
    (weights : List (String × ℝ)) (lu : ℝ × Option String) (bcnt : ℕ)
    (hnr : (score_candidate p1 path quarries rubbers highways ready_mix
        bitumen_sources weights lu bcnt).scores.near_road =
      (score_candidate p2 path quarries rubbers highways ready_mix
        bitumen_sources weights lu bcnt).scores.near_road)
    (hmd : (score_candidate p1 path quarries rubbers highways ready_mix
        bitumen_sources weights lu bcnt).scores.midpoint =
      (score_candidate p2 path quarries rubbers highways ready_mix
        bitumen_sources weights lu bcnt).scores.midpoint)
    (hqu : (score_candidate p1 path quarries rubbers highways ready_mix
        bitumen_sources weights lu bcnt).scores.quarry =
      (score_candidate p2 path quarries rubbers highways ready_mix
        bitumen_sources weights lu bcnt).scores.quarry)
    (hru : (score_candidate p1 path quarries rubbers highways ready_mix
        bitumen_sources weights lu bcnt).scores.rubber =
      (score_candidate p2 path quarries rubbers highways ready_mix
        bitumen_sources weights lu bcnt).scores.rubber)
    (hhw : (score_candidate p1 path quarries rubbers highways ready_mix
        bitumen_sources weights lu bcnt).scores.highway =
      (score_candidate p2 path quarries rubbers highways ready_mix
        bitumen_sources weights lu bcnt).scores.highway)
    (_hrm : (score_candidate p1 path quarries rubbers highways ready_mix
        bitumen_sources weights lu bcnt).scores.ready_mix =
      (score_candidate p2 path quarries rubbers highways ready_mix
        bitumen_sources weights lu bcnt).scores.ready_mix)
    (hbt : (score_candidate p1 path quarries rubbers highways ready_mix
        bitumen_sources weights lu bcnt).scores.bitumen =
      (score_candidate p2 path quarries rubbers highways ready_mix
        bitumen_sources weights lu bcnt).scores.bitumen)
    (hlu : 0.05 < lu.1)
    (hf1 : path_fraction_at_point p1 path ≤ 0.10 ∨
      0.90 ≤ path_fraction_at_point p1 path)
    (hf2 : 0.10 < path_fraction_at_point p2 path ∧
      path_fraction_at_point p2 path < 0.90) :
    (score_candidate p1 path quarries rubbers highways ready_mix
        bitumen_sources weights lu bcnt).total_score =
      0.2 * (score_candidate p2 path quarries rubbers highways ready_mix
        bitumen_sources weights lu bcnt).total_score ∧
    (score_candidate p1 path quarries rubbers highways ready_mix
        bitumen_sources weights lu bcnt).total_score ≤
      0.2 * (score_candidate p2 path quarries rubbers highways ready_mix
        bitumen_sources weights lu bcnt).total_score := by
  simp only [score_candidate] at hnr hmd hqu hru hhw hbt ⊢
  rw [if_neg (not_le.mpr hlu), if_neg (not_le.mpr hlu)]
  rw [if_pos hf1]
  rw [if_neg (show ¬ (path_fraction_at_point p2 path ≤ 0.10 ∨
    0.90 ≤ path_fraction_at_point p2 path) from by push_neg; exact hf2)]
  rw [hnr, hmd, hqu, hru, hhw, hbt]
  constructor
  · ring
  · apply le_of_eq
    ring

/-- C7 (witness): on the zig-zag path the candidates `(0, 0.05)` and
`(0, 0.95)` share every factor score (both lie on the path, symmetric about
the length-weighted midpoint `(0, 0.5)`, with empty facility layers), yet
sit at fractions about 1.7% and 31.7%; the edge candidate's total is exactly
one fifth of the interior one's. -/
theorem edge_penalty_factor_witness :
    (score_candidate ((0:ℝ), (0.05:ℝ)) pathZig [] [] [] [] []
        DEFAULT_WEIGHTS ((0.5:ℝ), none) 0).total_score =
      0.2 * (score_candidate ((0:ℝ), (0.95:ℝ)) pathZig [] [] [] [] []
        DEFAULT_WEIGHTS ((0.5:ℝ), none) 0).total_score := by
  have hub := uleg_bounds
  have hd1 : min_distance_to_path_m ((0:ℝ), (0.05:ℝ)) pathZig = 0 :=
    mindist_zig 0.05 (by norm_num) (by norm_num)
  have hd2 : min_distance_to_path_m ((0:ℝ), (0.95:ℝ)) pathZig = 0 :=
    mindist_zig 0.95 (by norm_num) (by norm_num)
  have hmid1 : haversine_m ((0:ℝ), (0.05:ℝ)).1 ((0:ℝ), (0.05:ℝ)).2
      (path_midpoint pathZig).1 (path_midpoint pathZig).2 =
    haversine_m ((0:ℝ), (0.95:ℝ)).1 ((0:ℝ), (0.95:ℝ)).2
      (path_midpoint pathZig).1 (path_midpoint pathZig).2 := by
    rw [midpoint_zig]
    show haversine_m 0 0.05 0 0.5 = haversine_m 0 0.95 0 0.5
    rw [haversine_equator 0.05 0.5 (by norm_num) (by norm_num)]
    rw [haversine_equator_symm 0.95 0.5]
    rw [haversine_equator 0.5 0.95 (by norm_num) (by norm_num)]
    norm_num
  have hfr1 : path_fraction_at_point ((0:ℝ), (0.05:ℝ)) pathZig ≤ 0.10 ∨
      0.90 ≤ path_fraction_at_point ((0:ℝ), (0.05:ℝ)) pathZig := by
    left
    rw [frac_zig 0.05 (by norm_num) (by norm_num)]
    have hv : (0.05 : ℝ) * 111319.34 / (3 * haversine_m 0 0 0 1) ≤ 0.10 := by
      rw [div_le_iff₀ (by nlinarith [hub.1] : (0:ℝ) < 3 * haversine_m 0 0 0 1)]
      nlinarith [hub.1]
    have hv0 : (0 : ℝ) ≤ 0.05 * 111319.34 / (3 * haversine_m 0 0 0 1) := by
      apply div_nonneg (by norm_num)
      nlinarith [hub.1]
    rw [min_eq_right (by linarith : (0.05 : ℝ) * 111319.34 /
      (3 * haversine_m 0 0 0 1) ≤ 1)]
    rw [max_eq_right hv0]
    exact hv
  have hfr2 : 0.10 < path_fraction_at_point ((0:ℝ), (0.95:ℝ)) pathZig ∧
      path_fraction_at_point ((0:ℝ), (0.95:ℝ)) pathZig < 0.90 := by
    rw [frac_zig 0.95 (by norm_num) (by norm_num)]
    have hpos : (0:ℝ) < 3 * haversine_m 0 0 0 1 := by nlinarith [hub.1]
    have ha : (0.10 : ℝ) < 0.95 * 111319.34 / (3 * haversine_m 0 0 0 1) := by
      rw [lt_div_iff₀ hpos]
      nlinarith [hub.2]
    have hb : (0.95 : ℝ) * 111319.34 / (3 * haversine_m 0 0 0 1) < 0.90 := by
      rw [div_lt_iff₀ hpos]
      nlinarith [hub.1]
    rw [min_eq_right (by linarith : (0.95 : ℝ) * 111319.34 /
      (3 * haversine_m 0 0 0 1) ≤ 1)]
    rw [max_eq_right (by linarith : (0 : ℝ) ≤ 0.95 * 111319.34 /
      (3 * haversine_m 0 0 0 1))]
    exact ⟨ha, hb⟩
  exact (edge_penalty_factor ((0:ℝ), (0.05:ℝ)) ((0:ℝ), (0.95:ℝ)) pathZig
    [] [] [] [] [] DEFAULT_WEIGHTS ((0.5:ℝ), none) 0
    (by simp only [score_candidate]; rw [hd1, hd2])
    (by simp only [score_candidate]; rw [hmid1])
    rfl rfl rfl rfl rfl
    (by norm_num)
    hfr1 hfr2).1

/-! ### Analyzer evaluation and inversion -/

/-- Evaluating `analyze_path` on a valid path when every live query
succeeded: the result is the `okAnalysis` record. -/
theorem analyze_ok {E : Type} (env : ScoringEnv) (fb : FallbackData)
    (path : List GeoPoint) (mode : String) (top_k : ℕ)
    (weights : List (String × ℝ))
    (asphalt quarries rubbers highways ready_mix bitumen : List OsmFacility)
    (hlen : ¬ path.length < 2) :
    analyze_path (mkLive E (.ok asphalt) (.ok quarries) (.ok rubbers)
        (.ok highways) (.ok ready_mix) (.ok bitumen)) env fb path mode top_k weights =
      .ok (okAnalysis env fb path top_k weights asphalt quarries rubbers highways
        ready_mix bitumen) := by
  unfold analyze_path
  rw [if_neg hlen]
  rfl

/-- Inverting a successful `analyze_path` run: the path was valid, every
live query succeeded, and the result is the corresponding `okAnalysis`
record. -/
theorem analyze_ok_inv {E : Type} (live : LiveResults E) (env : ScoringEnv)
    (fb : FallbackData) (path : List GeoPoint) (mode : String) (top_k : ℕ)
    (weights : List (String × ℝ)) (r : AnalysisResult)
    (h : analyze_path live env fb path mode top_k weights = .ok r) :
    ¬ path.length < 2 ∧
    ∃ asphalt quarries rubbers highways ready_mix bitumen,
      live = mkLive E (.ok asphalt) (.ok quarries) (.ok rubbers)
        (.ok highways) (.ok ready_mix) (.ok bitumen) ∧
      r = okAnalysis env fb path top_k weights asphalt quarries rubbers highways
        ready_mix bitumen := by
  by_cases hlen : path.length < 2
  · exfalso
    unfold analyze_path at h
    rw [if_pos hlen] at h
    exact Except.noConfusion h
  · refine ⟨hlen, ?_⟩
    obtain ⟨a, q, ru, hw, rm, b⟩ := live
    cases a with
    | error e =>
        exfalso
        unfold analyze_path at h
        rw [if_neg hlen] at h
        exact Except.noConfusion h
    | ok asphalt =>
    cases q with
    | error e =>
        exfalso
        unfold analyze_path at h
        rw [if_neg hlen] at h
        exact Except.noConfusion h
    | ok quarries =>
    cases ru with
    | error e =>
        exfalso
        unfold analyze_path at h
        rw [if_neg hlen] at h
        exact Except.noConfusion h
    | ok rubbers =>
    cases hw with
    | error e =>
        exfalso
        unfold analyze_path at h
        rw [if_neg hlen] at h
        exact Except.noConfusion h
    | ok highways =>
    cases rm with
    | error e =>
        exfalso
        unfold analyze_path at h
        rw [if_neg hlen] at h
        exact Except.noConfusion h
    | ok ready_mix =>
    cases b with
    | error e =>
        exfalso
        unfold analyze_path at h
        rw [if_neg hlen] at h
        exact Except.noConfusion h
    | ok bitumen =>
        refine ⟨asphalt, quarries, rubbers, highways, ready_mix, bitumen, rfl, ?_⟩
        have h2 : analyze_path (mkLive E (.ok asphalt) (.ok quarries)
            (.ok rubbers) (.ok highways) (.ok ready_mix) (.ok bitumen))
            env fb path mode top_k weights = .ok r := h
        rw [analyze_ok env fb path mode top_k weights asphalt quarries rubbers
          highways ready_mix bitumen hlen] at h2
        exact (Except.ok.inj h2).symm

/-! ### The proposed-site loop: de-duplication invariants -/

/-- Invariant of the proposed-site fold over the first `n` stretch indices:
the used-key set is exactly the key set of the accepted points, accepted
points have pairwise-distinct keys, there are at most `n` of them, each is
the target of some processed stretch, and every processed stretch is
represented up to rounding. -/
theorem proposedFold_invariant (path : List GeoPoint) (n : ℕ) :
    (∀ p ∈ ((List.range n).foldl (proposedStep path) ([], [])).2,
        roundKey p ∈ ((List.range n).foldl (proposedStep path) ([], [])).1) ∧
    (∀ key ∈ ((List.range n).foldl (proposedStep path) ([], [])).1,
        ∃ p ∈ ((List.range n).foldl (proposedStep path) ([], [])).2,
          roundKey p = key) ∧
    ((List.range n).foldl (proposedStep path) ([], [])).2.Pairwise
        (fun p q => roundKey p ≠ roundKey q) ∧
    ((List.range n).foldl (proposedStep path) ([], [])).2.length ≤ n ∧
    (∀ p ∈ ((List.range n).foldl (proposedStep path) ([], [])).2,
        ∃ k, k < n ∧ p = proposedTarget path k) ∧
    (∀ k, k < n → ∃ p ∈ ((List.range n).foldl (proposedStep path) ([], [])).2,
        roundKey p = roundKey (proposedTarget path k)) := by
  induction n with
  | zero => simp
  | succ n ih =>
      rw [List.range_succ, List.foldl_append]
      obtain ⟨ih1, ih2, ih3, ih4, ih5, ih6⟩ := ih
      set st := (List.range n).foldl (proposedStep path) (([], []) :
        List (ℝ × ℝ) × List GeoPoint) with hst
      simp only [List.foldl_cons, List.foldl_nil]
      unfold proposedStep
      by_cases hmem : roundKey (proposedTarget path n) ∈ st.1
      · rw [if_pos hmem]
        refine ⟨ih1, ih2, ih3, le_trans ih4 (Nat.le_succ n), ?_, ?_⟩
        · intro p hp
          obtain ⟨k, hk, hpk⟩ := ih5 p hp
          exact ⟨k, Nat.lt_succ_of_lt hk, hpk⟩
        · intro k hk
          rcases Nat.lt_succ_iff_lt_or_eq.mp hk with hlt | rfl
          · exact ih6 k hlt
          · exact ih2 _ hmem
      · rw [if_neg hmem]
        refine ⟨?_, ?_, ?_, ?_, ?_, ?_⟩
        · intro p hp
          rcases List.mem_append.mp hp with hin | hnew
          · exact List.mem_cons_of_mem _ (ih1 p hin)
          · rw [List.mem_singleton.mp hnew]
            exact List.mem_cons_self _ _
        · intro key hkey
          rcases List.mem_cons.mp hkey with rfl | hold
          · exact ⟨proposedTarget path n,
              List.mem_append_right _ (List.mem_singleton_self _), rfl⟩
          · obtain ⟨p, hp, hpk⟩ := ih2 key hold
            exact ⟨p, List.mem_append_left _ hp, hpk⟩
        · rw [List.pairwise_append]
          refine ⟨ih3, List.pairwise_singleton _ _, ?_⟩
          intro p hp q hq
          rw [List.mem_singleton.mp hq]
          intro heq
          exact hmem (heq ▸ ih1 p hp)
        · rw [List.length_append, List.length_singleton]
          omega
        · intro p hp
          rcases List.mem_append.mp hp with hin | hnew
          · obtain ⟨k, hk, hpk⟩ := ih5 p hin
            exact ⟨k, Nat.lt_succ_of_lt hk, hpk⟩
          · exact ⟨n, Nat.lt_succ_self n, List.mem_singleton.mp hnew⟩
        · intro k hk
          rcases Nat.lt_succ_iff_lt_or_eq.mp hk with hlt | rfl
          · obtain ⟨p, hp, hpk⟩ := ih6 k hlt
            exact ⟨p, List.mem_append_left _ hp, hpk⟩
          · exact ⟨proposedTarget path k,
              List.mem_append_right _ (List.mem_singleton_self _), rfl⟩

/-- On a path shorter than 200 km no site is proposed. -/
theorem proposed_points_empty (path : List GeoPoint)
    (h : pathTotal path < 200000) : proposed_points path = [] := by
  unfold proposed_points
  rw [if_neg (not_le.mpr h)]

/-- On a path of at least 200 km the proposed points are the fold result
over the full-stretch indices. -/
theorem proposed_points_of_ge (path : List GeoPoint)
    (h : 200000 ≤ pathTotal path) :
    proposed_points path =
      ((List.range ((⌊pathTotal path / 200000⌋).toNat)).foldl
        (proposedStep path) ([], [])).2 := by
  unfold proposed_points
  rw [if_pos h]

/-- A short path has no full 200 km stretch. -/
theorem numFull_zero_of_lt (path : List GeoPoint)
    (h : pathTotal path < 200000) : (⌊pathTotal path / 200000⌋).toNat = 0 := by
  have : pathTotal path / 200000 < 1 := by
    rw [div_lt_one (by norm_num : (0:ℝ) < 200000)]
    linarith
  have hfl : ⌊pathTotal path / 200000⌋ < 1 := by
    rw [Int.floor_lt]
    simpa using this
  omega

/-- Proposed points have pairwise-distinct rounded keys. -/
theorem proposed_points_pairwise (path : List GeoPoint) :
    (proposed_points path).Pairwise (fun p q => roundKey p ≠ roundKey q) := by
  by_cases h : 200000 ≤ pathTotal path
  · rw [proposed_points_of_ge path h]
    exact (proposedFold_invariant path _).2.2.1
  · rw [proposed_points_empty path (by linarith [not_le.mp h])]
    exact List.Pairwise.nil

/-- There are at most `floor(D / 200 km)` proposed points. -/
theorem proposed_points_length (path : List GeoPoint) :
    (proposed_points path).length ≤ (⌊pathTotal path / 200000⌋).toNat := by
  by_cases h : 200000 ≤ pathTotal path
  · rw [proposed_points_of_ge path h]
    exact (proposedFold_invariant path _).2.2.2.1
  · rw [proposed_points_empty path (by linarith [not_le.mp h])]
    simp

/-- Every proposed point is the 100 km midpoint of some full stretch. -/
theorem proposed_points_targets (path : List GeoPoint) :
    ∀ p ∈ proposed_points path,
      ∃ k, k < (⌊pathTotal path / 200000⌋).toNat ∧ p = proposedTarget path k := by
  by_cases h : 200000 ≤ pathTotal path
  · rw [proposed_points_of_ge path h]
    exact (proposedFold_invariant path _).2.2.2.2.1
  · rw [proposed_points_empty path (by linarith [not_le.mp h])]
    intro p hp
    exact absurd hp (List.not_mem_nil p)

/-- Every full stretch is represented among the proposed points, up to the
5-decimal rounding of its target. -/
theorem proposed_points_cover (path : List GeoPoint) :
    ∀ k, k < (⌊pathTotal path / 200000⌋).toNat →
      ∃ p ∈ proposed_points path,
        roundKey p = roundKey (proposedTarget path k) := by
  by_cases h : 200000 ≤ pathTotal path
  · rw [proposed_points_of_ge path h]
    exact (proposedFold_invariant path _).2.2.2.2.2
  · intro k hk
    rw [numFull_zero_of_lt path (by linarith [not_le.mp h])] at hk
    exact absurd hk (Nat.not_lt_zero k)

/-! ### The self-overlapping path `pathP3`: two stretches, one rounded key -/

/-- Closed form of the `pathP3` leg. -/
theorem uP3_eq : haversine_m 0 0 0 deltaP3 = 6371000 * radians deltaP3 := by
  have := haversine_equator 0 deltaP3 (by norm_num [deltaP3]) (by norm_num [deltaP3])
  simpa using this

/-- Numeric bounds for the `pathP3` leg: just above 100 km. -/
theorem uP3_bounds : 100000.13 ≤ haversine_m 0 0 0 deltaP3 ∧
    haversine_m 0 0 0 deltaP3 ≤ 100000.17 := by
  rw [uP3_eq]
  unfold radians deltaP3
  constructor
  · nlinarith [Real.pi_gt_d6]
  · nlinarith [Real.pi_lt_d6]

/-- Cumulative distances of `pathP3`: four equal legs. -/
theorem cumdist_P3 : path_cumdist_m pathP3 =
    [0, haversine_m 0 0 0 deltaP3, 2 * haversine_m 0 0 0 deltaP3,
     3 * haversine_m 0 0 0 deltaP3, 4 * haversine_m 0 0 0 deltaP3] := by
  show path_cumdist_m [((0:ℝ), (0:ℝ)), ((0:ℝ), deltaP3), ((0:ℝ), (0:ℝ)),
    ((0:ℝ), deltaP3), ((0:ℝ), (0:ℝ))] = _
  simp only [path_cumdist_m, cumdistAux]
  rw [haversine_equator_symm deltaP3 0]
  norm_num
  refine ⟨by ring, by ring, by ring⟩

/-- Total length of `pathP3`. -/
theorem total_P3 : pathTotal pathP3 = 4 * haversine_m 0 0 0 deltaP3 := by
  unfold pathTotal
  rw [cumdist_P3]
  rfl

/-- `pathP3` spans exactly two full 200 km stretches. -/
theorem numFull_P3 : (⌊pathTotal pathP3 / 200000⌋).toNat = 2 := by
  have hub := uP3_bounds
  rw [total_P3]
  have hfl : ⌊4 * haversine_m 0 0 0 deltaP3 / 200000⌋ = 2 := by
    rw [Int.floor_eq_iff]
    constructor
    · push_cast
      rw [le_div_iff₀ (by norm_num : (0:ℝ) < 200000)]
      nlinarith [hub.1]
    · push_cast
      rw [div_lt_iff₀ (by norm_num : (0:ℝ) < 200000)]
      nlinarith [hub.2]
  rw [hfl]
  rfl

/-- The 100 km mark of `pathP3` sits on the first leg. -/
theorem target0_P3 : proposedTarget pathP3 0 =
    ((0 : ℝ), 100000 / haversine_m 0 0 0 deltaP3 * deltaP3) := by
  have hub := uP3_bounds
  unfold proposedTarget
  rw [show ((0 : ℕ) : ℝ) * 200000 + 100000 = 100000 from by norm_num]
  have step : point_at_distance_m pathP3 100000 =
      (if pathTotal pathP3 ≤ 1e-9 then ((0:ℝ), (0:ℝ))
       else if (100000 : ℝ) ≤ 0 then ((0:ℝ), (0:ℝ))
       else if pathTotal pathP3 ≤ 100000 then
         (((0:ℝ), (0:ℝ)) :: ((0:ℝ), deltaP3) :: [((0:ℝ), (0:ℝ)),
           ((0:ℝ), deltaP3), ((0:ℝ), (0:ℝ))]).getLast (by simp)
       else seekInterp 100000 ((0:ℝ), (0:ℝ)) 0
         ([((0:ℝ), deltaP3), ((0:ℝ), (0:ℝ)), ((0:ℝ), deltaP3),
           ((0:ℝ), (0:ℝ))].zip (path_cumdist_m pathP3).tail)) := rfl
  rw [step, total_P3]
  rw [if_neg (by nlinarith [hub.1] : ¬ 4 * haversine_m 0 0 0 deltaP3 ≤ 1e-9)]
  rw [if_neg (by norm_num : ¬ (100000 : ℝ) ≤ 0)]
  rw [if_neg (by nlinarith [hub.1] : ¬ 4 * haversine_m 0 0 0 deltaP3 ≤ 100000)]
  rw [cumdist_P3]
  simp only [List.tail_cons, List.zip_cons_cons, List.zip_nil_right, seekInterp]
  rw [if_pos (by nlinarith [hub.1] : (100000 : ℝ) ≤ haversine_m 0 0 0 deltaP3)]
  rw [if_neg (by nlinarith [hub.1] :
    ¬ haversine_m 0 0 0 deltaP3 - 0 ≤ 1e-9)]
  rw [show (100000 - 0 : ℝ) / (haversine_m 0 0 0 deltaP3 - 0) =
    100000 / haversine_m 0 0 0 deltaP3 from by norm_num]
  norm_num

/-- The 300 km mark of `pathP3` sits on the third leg. -/
theorem target1_P3 : proposedTarget pathP3 1 =
    ((0 : ℝ), (300000 - 2 * haversine_m 0 0 0 deltaP3) /
      haversine_m 0 0 0 deltaP3 * deltaP3) := by
  have hub := uP3_bounds
  unfold proposedTarget
  rw [show ((1 : ℕ) : ℝ) * 200000 + 100000 = 300000 from by norm_num]
  have step : point_at_distance_m pathP3 300000 =
      (if pathTotal pathP3 ≤ 1e-9 then ((0:ℝ), (0:ℝ))
       else if (300000 : ℝ) ≤ 0 then ((0:ℝ), (0:ℝ))
       else if pathTotal pathP3 ≤ 300000 then
         (((0:ℝ), (0:ℝ)) :: ((0:ℝ), deltaP3) :: [((0:ℝ), (0:ℝ)),
           ((0:ℝ), deltaP3), ((0:ℝ), (0:ℝ))]).getLast (by simp)
       else seekInterp 300000 ((0:ℝ), (0:ℝ)) 0
         ([((0:ℝ), deltaP3), ((0:ℝ), (0:ℝ)), ((0:ℝ), deltaP3),
           ((0:ℝ), (0:ℝ))].zip (path_cumdist_m pathP3).tail)) := rfl
  rw [step, total_P3]
  rw [if_neg (by nlinarith [hub.1] : ¬ 4 * haversine_m 0 0 0 deltaP3 ≤ 1e-9)]
  rw [if_neg (by norm_num : ¬ (300000 : ℝ) ≤ 0)]
  rw [if_neg (by nlinarith [hub.1] : ¬ 4 * haversine_m 0 0 0 deltaP3 ≤ 300000)]
  rw [cumdist_P3]
  simp only [List.tail_cons, List.zip_cons_cons, List.zip_nil_right, seekInterp]
  rw [if_neg (by nlinarith [hub.2] : ¬ (300000 : ℝ) ≤ haversine_m 0 0 0 deltaP3)]
  rw [if_neg (by nlinarith [hub.2] :
    ¬ (300000 : ℝ) ≤ 2 * haversine_m 0 0 0 deltaP3)]
  rw [if_pos (by nlinarith [hub.1] :
    (300000 : ℝ) ≤ 3 * haversine_m 0 0 0 deltaP3)]
  rw [if_neg (by nlinarith [hub.1] :
    ¬ 3 * haversine_m 0 0 0 deltaP3 - 2 * haversine_m 0 0 0 deltaP3 ≤ 1e-9)]
  rw [show 3 * haversine_m 0 0 0 deltaP3 - 2 * haversine_m 0 0 0 deltaP3 =
    haversine_m 0 0 0 deltaP3 from by ring]
  norm_num

/-- Rounding a real known to lie in `[n - 1/2, n + 1/2)`. -/
theorem round_eq_of_bounds (x : ℝ) (n : ℤ) (h1 : (n : ℝ) - 1/2 ≤ x)
    (h2 : x < (n : ℝ) + 1/2) : round x = n := by
  rw [round_eq, Int.floor_eq_iff]
  constructor
  · linarith
  · linarith

/-- Both stretch marks of `pathP3` share the 5-decimal rounding key. -/
theorem keys_P3 : roundKey (proposedTarget pathP3 1) =
    roundKey (proposedTarget pathP3 0) := by
  have hub := uP3_bounds
  have hupos : (0 : ℝ) < haversine_m 0 0 0 deltaP3 := by linarith [hub.1]
  rw [target0_P3, target1_P3]
  unfold deltaP3 at hub
  unfold roundKey round5
  have hz : round ((0 : ℝ) * 100000) = 0 := by norm_num
  have h0 : round (100000 / haversine_m 0 0 0 deltaP3 * deltaP3 * 100000) =
      (89932 : ℤ) := by
    apply round_eq_of_bounds
    · push_cast
      rw [div_mul_eq_mul_div, div_mul_eq_mul_div, le_div_iff₀ hupos]
      unfold deltaP3
      nlinarith [hub.2]
    · push_cast
      rw [div_mul_eq_mul_div, div_mul_eq_mul_div, div_lt_iff₀ hupos]
      unfold deltaP3
      nlinarith [hub.1]
  have h1 : round ((300000 - 2 * haversine_m 0 0 0 deltaP3) /
      haversine_m 0 0 0 deltaP3 * deltaP3 * 100000) = (89932 : ℤ) := by
    apply round_eq_of_bounds
    · push_cast
      rw [div_mul_eq_mul_div, div_mul_eq_mul_div, le_div_iff₀ hupos]
      unfold deltaP3
      nlinarith [hub.1, hub.2]
    · push_cast
      rw [div_mul_eq_mul_div, div_mul_eq_mul_div, div_lt_iff₀ hupos]
      unfold deltaP3
      nlinarith [hub.1, hub.2]
  rw [hz, h0, h1]

/-- The proposed sites of `pathP3` collapse to the single 100 km mark: the
300 km mark is silently dropped by the rounded-key de-duplication. -/
theorem proposed_points_P3 :
    proposed_points pathP3 = [proposedTarget pathP3 0] := by
  have hub := uP3_bounds
  have h2e5 : (200000 : ℝ) ≤ pathTotal pathP3 := by
    rw [total_P3]
    nlinarith [hub.1]
  rw [proposed_points_of_ge pathP3 h2e5, numFull_P3]
  rw [show List.range 2 = [0, 1] from rfl]
  simp only [List.foldl]
  unfold proposedStep
  rw [if_neg (List.not_mem_nil _)]
  rw [if_pos (by
    simp only []
    rw [keys_P3]
    exact List.mem_singleton_self _)]
  rfl

/-- Full analyzer run on `pathP3` with empty live results and fallback
data. -/
theorem analyze_P3_eval :
    analyze_path liveEmpty env0 fbEmpty pathP3 "new" 5 DEFAULT_WEIGHTS =
      .ok (okAnalysis env0 fbEmpty pathP3 5 DEFAULT_WEIGHTS [] [] [] [] [] []) := by
  have hl : liveEmpty = mkLive Unit (.ok []) (.ok []) (.ok [])
      (.ok []) (.ok []) (.ok []) := rfl
  rw [hl]
  exact analyze_ok env0 fbEmpty pathP3 "new" 5 DEFAULT_WEIGHTS [] [] [] [] [] []
    (by norm_num [pathP3])

/-- Full analyzer run on `pathAB` with empty live results and fallback
data. -/
theorem analyze_AB_eval :
    analyze_path liveEmpty env0 fbEmpty pathAB "new" 5 DEFAULT_WEIGHTS =
      .ok (okAnalysis env0 fbEmpty pathAB 5 DEFAULT_WEIGHTS [] [] [] [] [] []) := by
  have hl : liveEmpty = mkLive Unit (.ok []) (.ok []) (.ok [])
      (.ok []) (.ok []) (.ok []) := rfl
  rw [hl]
  exact analyze_ok env0 fbEmpty pathAB "new" 5 DEFAULT_WEIGHTS [] [] [] [] [] []
    (by norm_num [pathAB])

/-- The `pathP3` run proposes exactly one site. -/
theorem analyze_P3_proposed_len :
    (okAnalysis env0 fbEmpty pathP3 5 DEFAULT_WEIGHTS [] [] [] [] [] []).proposed.length
      = 1 := by
  unfold okAnalysis
  rw [List.length_mergeSort, List.length_map, proposed_points_P3]
  rfl

/-- C3 (counterexample): on the self-overlapping 400 km path `pathP3` the
analyzer returns a single proposed candidate although the path spans two
full 200 km stretches — the 300 km mark collides with the 100 km mark after
rounding to 5 decimals and is silently dropped, so "one proposed candidate
per full 200 km stretch" is false. -/
theorem proposed_per_stretch_cex :
    (analyze_path liveEmpty env0 fbEmpty pathP3 "new" 5 DEFAULT_WEIGHTS).map
        (fun r => r.proposed.length) = .ok 1 ∧
    (⌊pathTotal pathP3 / 200000⌋).toNat = 2 := by
  constructor
  · rw [analyze_P3_eval]
    rw [show (Except.ok (okAnalysis env0 fbEmpty pathP3 5 DEFAULT_WEIGHTS
        [] [] [] [] [] [])).map (fun r => r.proposed.length) =
      .ok ((okAnalysis env0 fbEmpty pathP3 5 DEFAULT_WEIGHTS
        [] [] [] [] [] []).proposed.length) from rfl]
    rw [analyze_P3_proposed_len]
  · exact numFull_P3

/-- Sorting with the reversed comparison on a real-valued key yields a list
that is pairwise descending in that key. -/
theorem mergeSort_desc {α : Type} (f : α → ℝ) (l : List α) :
    (l.mergeSort fun x y => decide (f y ≤ f x)).Pairwise (fun x y => f y ≤ f x) := by
  have h := @List.sorted_mergeSort α (fun x y => decide (f y ≤ f x))
    (fun a b c hab hbc =>
      decide_eq_true (le_trans (of_decide_eq_true hbc) (of_decide_eq_true hab)))
    (fun a b => by
      rcases le_total (f b) (f a) with h | h
      · simp [decide_eq_true h]
      · simp [decide_eq_true h])
    l
  exact h.imp fun hx => of_decide_eq_true hx

/-! ### C3 — proposed-site generation -/

/-- C3 (amended): for every successful analysis, the proposed list is empty
whenever the path is shorter than 200 km; it is sorted descending by
`total_score`; its locations are a permutation of the de-duplicated stretch
marks (so nothing is truncated); every proposed location is the point at arc
length `k * 200 km + 100 km` of some full stretch `k`; and every full
stretch is represented by a proposed site up to the 5-decimal rounding of
its mark (marks that coincide under that rounding share one site). -/
theorem proposed_sites_amended {E : Type} (live : LiveResults E)
    (env : ScoringEnv) (fb : FallbackData) (path : List GeoPoint)
    (mode : String) (top_k : ℕ) (weights : List (String × ℝ))
    (r : AnalysisResult)
    (h : analyze_path live env fb path mode top_k weights = .ok r) :
    (pathTotal path < 200000 → r.proposed = []) ∧
    r.proposed.Pairwise (fun s t => t.score.total_score ≤ s.score.total_score) ∧
    (r.proposed.map fun s => ((s.lat, s.lon) : GeoPoint)).Perm
      (proposed_points path) ∧
    (∀ s ∈ r.proposed, ∃ k, k < (⌊pathTotal path / 200000⌋).toNat ∧
      ((s.lat, s.lon) : GeoPoint) = proposedTarget path k) ∧
    (∀ k, k < (⌊pathTotal path / 200000⌋).toNat →
      ∃ s ∈ r.proposed, roundKey (s.lat, s.lon) =
        roundKey (proposedTarget path k)) := by
  obtain ⟨hlen, asphalt, quarries, rubbers, highways, ready_mix, bitumen,
    hlive, hr⟩ := analyze_ok_inv live env fb path mode top_k weights r h
  subst hr
  refine ⟨?_, ?_, ?_, ?_, ?_⟩
  · intro hshort
    simp [okAnalysis, proposed_points_empty path hshort]
  · exact mergeSort_desc (fun s : ProposedSite => s.score.total_score) _
  · have hperm := List.mergeSort_perm ((proposed_points path).map fun p =>
      ({ name := "Proposed Site", lat := p.1, lon := p.2, kind := "proposed"
         score := score_candidate p path quarries rubbers highways ready_mix
           bitumen weights (env.lu p) (env.bcnt p) } : ProposedSite))
      (fun x y => decide (y.score.total_score ≤ x.score.total_score))
    have h2 := hperm.map fun s : ProposedSite => ((s.lat, s.lon) : GeoPoint)
    refine h2.trans ?_
    rw [List.map_map]
    rw [show ((fun s : ProposedSite => ((s.lat, s.lon) : GeoPoint)) ∘
      fun p : GeoPoint =>
        ({ name := "Proposed Site", lat := p.1, lon := p.2, kind := "proposed"
           score := score_candidate p path quarries rubbers highways ready_mix
             bitumen weights (env.lu p) (env.bcnt p) } : ProposedSite)) =
      (id : GeoPoint → GeoPoint) from funext fun p => rfl]
    rw [List.map_id]
  · intro s hs
    have hmem : s ∈ (proposed_points path).map fun p =>
        ({ name := "Proposed Site", lat := p.1, lon := p.2, kind := "proposed"
           score := score_candidate p path quarries rubbers highways ready_mix
             bitumen weights (env.lu p) (env.bcnt p) } : ProposedSite) :=
      List.mem_mergeSort.mp hs
    obtain ⟨p, hp, rfl⟩ := List.mem_map.mp hmem
    obtain ⟨k, hk, hpk⟩ := proposed_points_targets path p hp
    exact ⟨k, hk, hpk⟩
  · intro k hk
    obtain ⟨p, hp, hkey⟩ := proposed_points_cover path k hk
    refine ⟨_, List.mem_mergeSort.mpr (List.mem_map.mpr ⟨p, hp, rfl⟩), ?_⟩
    exact hkey

/-- C3 (witness for the amended theorem): the short equatorial run — the
path is below 200 km, so the returned proposed list is empty. -/
theorem proposed_sites_amended_witness :
    ∃ r, analyze_path liveEmpty env0 fbEmpty pathAB "new" 5 DEFAULT_WEIGHTS =
        .ok r ∧ r.proposed = [] := by
  refine ⟨okAnalysis env0 fbEmpty pathAB 5 DEFAULT_WEIGHTS [] [] [] [] [] [],
    analyze_AB_eval, ?_⟩
  apply (proposed_sites_amended liveEmpty env0 fbEmpty pathAB "new" 5
    DEFAULT_WEIGHTS _ analyze_AB_eval).1
  have htot : pathTotal pathAB = haversine_m 0 0 0 1 := by
    show pathTotal [((0:ℝ), (0:ℝ)), ((0:ℝ), (1:ℝ))] = _
    rw [total_pair]
  rw [htot]
  linarith [uleg_bounds.2]

/-! ### C10 — proposed-site de-duplication invariant -/

/-- C10: the proposed candidates of any successful analysis have pairwise
distinct locations after rounding each coordinate to five decimals, so there
are at most `floor(D / 200 km)` of them — and strictly fewer is possible on
a self-overlapping path (witnessed by `pathP3`, whose two stretch marks
collide under the rounding). -/
theorem proposed_dedup_invariant {E : Type} (live : LiveResults E)
    (env : ScoringEnv) (fb : FallbackData) (path : List GeoPoint)
    (mode : String) (top_k : ℕ) (weights : List (String × ℝ))
    (r : AnalysisResult)
    (h : analyze_path live env fb path mode top_k weights = .ok r) :
    r.proposed.Pairwise (fun s t => roundKey (s.lat, s.lon) ≠
      roundKey (t.lat, t.lon)) ∧
    r.proposed.length ≤ (⌊pathTotal path / 200000⌋).toNat ∧
    (∃ r3, analyze_path liveEmpty env0 fbEmpty pathP3 "new" 5 DEFAULT_WEIGHTS =
      .ok r3 ∧ r3.proposed.length < (⌊pathTotal pathP3 / 200000⌋).toNat) := by
  obtain ⟨hlen, asphalt, quarries, rubbers, highways, ready_mix, bitumen,
    hlive, hr⟩ := analyze_ok_inv live env fb path mode top_k weights r h
  subst hr
  refine ⟨?_, ?_, ?_⟩
  · have hperm := List.mergeSort_perm ((proposed_points path).map fun p =>
      ({ name := "Proposed Site", lat := p.1, lon := p.2, kind := "proposed"
         score := score_candidate p path quarries rubbers highways ready_mix
           bitumen weights (env.lu p) (env.bcnt p) } : ProposedSite))
      (fun x y => decide (y.score.total_score ≤ x.score.total_score))
    apply (hperm.pairwise_iff (fun {s t} hst => Ne.symm hst)).mpr
    rw [List.pairwise_map]
    have hpw := proposed_points_pairwise path
    exact hpw.imp fun {p q} hpq => by simpa using hpq
  · show (((proposed_points path).map _).mergeSort _).length ≤ _
    rw [List.length_mergeSort, List.length_map]
    exact proposed_points_length path
  · refine ⟨okAnalysis env0 fbEmpty pathP3 5 DEFAULT_WEIGHTS [] [] [] [] [] [],
      analyze_P3_eval, ?_⟩
    rw [analyze_P3_proposed_len, numFull_P3]
    norm_num

/-- C10 (witness): the short equatorial run satisfies the invariant. -/
theorem proposed_dedup_invariant_witness :
    (okAnalysis env0 fbEmpty pathAB 5 DEFAULT_WEIGHTS
        [] [] [] [] [] []).proposed.length ≤
      (⌊pathTotal pathAB / 200000⌋).toNat :=
  (proposed_dedup_invariant liveEmpty env0 fbEmpty pathAB "new" 5
    DEFAULT_WEIGHTS _ analyze_AB_eval).2.1

/-! ### C1 — fallback gating -/

/-- The fallback rubber-recycling item of `fbRub` sits on the start of
`pathAB`, at distance zero from the path. -/
theorem fbRub_dist_zero :
    min_distance_to_path_m ((0 : ℝ), (0 : ℝ)) pathAB = 0 := by
  show min_distance_to_path_m ((0 : ℝ), (0 : ℝ))
    [((0 : ℝ), (0 : ℝ)), ((0 : ℝ), (1 : ℝ))] = 0
  rw [mindist_pair]
  exact pt2seg_equator 0 0 1 (by norm_num) (by norm_num) (by norm_num)

/-- Annotating and filtering the `fbRub` rubber-recycling list against
`pathAB` keeps its single on-path item. -/
theorem fbRub_af_ne :
    annotate_and_filter pathAB fbRub.rubber_recycling
      "fallback_rubber_recycling" ≠ [] := by
  intro hc
  have hlen := congrArg List.length hc
  simp only [annotate_and_filter, fbRub, List.length_mergeSort,
    List.filterMap_cons, List.filterMap_nil] at hlen
  rw [fbRub_dist_zero] at hlen
  rw [if_pos (show (0 : ℝ) ≤ SEARCH_RADIUS_M from by
    norm_num [SEARCH_RADIUS_M])] at hlen
  simp at hlen

/-- C1: fallback gating of `analyze_path` — in every successful analysis
`fallback_asphalt` is non-empty only if the live asphalt query succeeded
with zero facilities, `fallback_rubber_recycling` only if the live rubber
query succeeded with zero facilities, and `fallback_waste` and
`fallback_rubber_production` only if both live results were empty; and a
concrete run with one live asphalt facility, zero live rubber facilities
and an on-path fallback rubber-recycling site returns an empty
`fallback_asphalt` and a populated `fallback_rubber_recycling`. -/
theorem fallback_gating {E : Type} (live : LiveResults E) (env : ScoringEnv)
    (fb : FallbackData) (path : List GeoPoint) (mode : String) (top_k : ℕ)
    (weights : List (String × ℝ)) (r : AnalysisResult)
    (h : analyze_path live env fb path mode top_k weights = .ok r) :
    (r.fallback_asphalt ≠ [] →
      live.asphalt = .ok ([] : List OsmFacility)) ∧
    (r.fallback_rubber_recycling ≠ [] →
      live.rubbers = .ok ([] : List OsmFacility)) ∧
    (r.fallback_waste ≠ [] →
      live.asphalt = .ok ([] : List OsmFacility) ∧
      live.rubbers = .ok ([] : List OsmFacility)) ∧
    (r.fallback_rubber_production ≠ [] →
      live.asphalt = .ok ([] : List OsmFacility) ∧
      live.rubbers = .ok ([] : List OsmFacility)) ∧
    (∃ r1, analyze_path liveC1 env0 fbRub pathAB "new" 5 DEFAULT_WEIGHTS =
      .ok r1 ∧ r1.fallback_asphalt = [] ∧
      r1.fallback_rubber_recycling ≠ []) := by
  obtain ⟨hlen, asphalt, quarries, rubbers, highways, ready_mix, bitumen,
    hlive, hr⟩ := analyze_ok_inv live env fb path mode top_k weights r h
  subst hr
  subst hlive
  refine ⟨?_, ?_, ?_, ?_, ?_⟩
  · intro hne
    have hfield : (okAnalysis env fb path top_k weights asphalt quarries
        rubbers highways ready_mix bitumen).fallback_asphalt =
        if asphalt.length > 0 then []
        else annotate_and_filter path fb.asphalt_plants "fallback_asphalt" := rfl
    rw [hfield] at hne
    by_cases hA : asphalt.length > 0
    · rw [if_pos hA] at hne
      exact absurd rfl hne
    · show Except.ok asphalt = Except.ok ([] : List OsmFacility)
      exact congrArg Except.ok
        (List.length_eq_zero.mp (Nat.eq_zero_of_not_pos hA))
  · intro hne
    have hfield : (okAnalysis env fb path top_k weights asphalt quarries
        rubbers highways ready_mix bitumen).fallback_rubber_recycling =
        if rubbers.length > 0 then []
        else annotate_and_filter path fb.rubber_recycling
          "fallback_rubber_recycling" := rfl
    rw [hfield] at hne
    by_cases hR : rubbers.length > 0
    · rw [if_pos hR] at hne
      exact absurd rfl hne
    · show Except.ok rubbers = Except.ok ([] : List OsmFacility)
      exact congrArg Except.ok
        (List.length_eq_zero.mp (Nat.eq_zero_of_not_pos hR))
  · intro hne
    have hfield : (okAnalysis env fb path top_k weights asphalt quarries
        rubbers highways ready_mix bitumen).fallback_waste =
        if ¬(asphalt.length > 0 ∨ rubbers.length > 0)
        then annotate_and_filter path fb.waste_sites "fallback_waste"
        else [] := rfl
    rw [hfield] at hne
    by_cases hc : ¬(asphalt.length > 0 ∨ rubbers.length > 0)
    · push_neg at hc
      refine ⟨?_, ?_⟩
      · show Except.ok asphalt = Except.ok ([] : List OsmFacility)
        exact congrArg Except.ok
          (List.length_eq_zero.mp (Nat.le_zero.mp hc.1))
      · show Except.ok rubbers = Except.ok ([] : List OsmFacility)
        exact congrArg Except.ok
          (List.length_eq_zero.mp (Nat.le_zero.mp hc.2))
    · rw [if_neg hc] at hne
      exact absurd rfl hne
  · intro hne
    have hfield : (okAnalysis env fb path top_k weights asphalt quarries
        rubbers highways ready_mix bitumen).fallback_rubber_production =
        if ¬(asphalt.length > 0 ∨ rubbers.length > 0)
        then annotate_and_filter path fb.rubber_production
          "fallback_rubber_production"
        else [] := rfl
    rw [hfield] at hne
    by_cases hc : ¬(asphalt.length > 0 ∨ rubbers.length > 0)
    · push_neg at hc
      refine ⟨?_, ?_⟩
      · show Except.ok asphalt = Except.ok ([] : List OsmFacility)
        exact congrArg Except.ok
          (List.length_eq_zero.mp (Nat.le_zero.mp hc.1))
      · show Except.ok rubbers = Except.ok ([] : List OsmFacility)
        exact congrArg Except.ok
          (List.length_eq_zero.mp (Nat.le_zero.mp hc.2))
    · rw [if_neg hc] at hne
      exact absurd rfl hne
  · refine ⟨okAnalysis env0 fbRub pathAB 5 DEFAULT_WEIGHTS
      [facA] [] [] [] [] [], ?_, ?_, ?_⟩
    · have hl : liveC1 = mkLive Unit (.ok [facA]) (.ok []) (.ok [])
        (.ok []) (.ok []) (.ok []) := rfl
      rw [hl]
      exact analyze_ok env0 fbRub pathAB "new" 5 DEFAULT_WEIGHTS
        [facA] [] [] [] [] [] (by norm_num [pathAB])
    · show (if ([facA] : List OsmFacility).length > 0
          then ([] : List FallbackFacility)
          else annotate_and_filter pathAB fbRub.asphalt_plants
            "fallback_asphalt") = []
      rw [if_pos (by simp)]
    · show (if ([] : List OsmFacility).length > 0
          then ([] : List FallbackFacility)
          else annotate_and_filter pathAB fbRub.rubber_recycling
            "fallback_rubber_recycling") ≠ []
      rw [if_neg (by simp)]
      exact fbRub_af_ne

/-- C1 (witness): applying the gating theorem to the empty-live run on the
short equatorial path yields the concrete gated instance. -/
theorem fallback_gating_witness :
    ∃ r1, analyze_path liveC1 env0 fbRub pathAB "new" 5 DEFAULT_WEIGHTS =
      .ok r1 ∧ r1.fallback_asphalt = [] ∧
      r1.fallback_rubber_recycling ≠ [] :=
  (fallback_gating liveEmpty env0 fbEmpty pathAB "new" 5 DEFAULT_WEIGHTS _
    analyze_AB_eval).2.2.2.2

end TransCalc
